import Mathlib

set_option maxHeartbeats 1000000
set_option maxRecDepth 8000

namespace GapsSolitaire

/-! # Data model (src/unnamed/part_000, `types.ts`)

`Suit` and `Rank` are the two enums; `CardData` is the card record and a grid
cell is `CardData | null`, embedded as `Option CardData`. -/

inductive Suit
  | HEARTS
  | DIAMONDS
  | CLUBS
  | SPADES
deriving DecidableEq, Repr

inductive Rank
  | TWO
  | THREE
  | FOUR
  | FIVE
  | SIX
  | SEVEN
  | EIGHT
  | NINE
  | TEN
  | JACK
  | QUEEN
  | KING
  | ACE
deriving DecidableEq, Repr

/-- The string value of each `Rank` enum member (the API uses "0" for ten). -/
def rankCode : Rank → String
  | .TWO => "2"
  | .THREE => "3"
  | .FOUR => "4"
  | .FIVE => "5"
  | .SIX => "6"
  | .SEVEN => "7"
  | .EIGHT => "8"
  | .NINE => "9"
  | .TEN => "0"
  | .JACK => "J"
  | .QUEEN => "Q"
  | .KING => "K"
  | .ACE => "A"

/-- The string value of each `Suit` enum member. -/
def suitCode : Suit → String
  | .HEARTS => "H"
  | .DIAMONDS => "D"
  | .CLUBS => "C"
  | .SPADES => "S"

structure CardData where
  suit : Suit
  rank : Rank
  code : String
  image : String
  id : String
deriving DecidableEq, Repr

/-- A grid cell: a card or a hole (`null`). -/
abbrev Cell := Option CardData

/-- The 4x13 board, row major. -/
abbrev Grid := List (List Cell)

/-! # Rule engine (src/utils/gameRules.ts) -/

/-- The `RANKS` constant (order gives each rank its numeric value). -/
def RANKS : List Rank :=
  [.TWO, .THREE, .FOUR, .FIVE, .SIX, .SEVEN,
   .EIGHT, .NINE, .TEN, .JACK, .QUEEN, .KING, .ACE]

/-- The `SUITS` constant. -/
def SUITS : List Suit := [.HEARTS, .DIAMONDS, .CLUBS, .SPADES]

/-- `getRankValue`: index in `RANKS` plus 2 (TWO is 2, ACE is 14). -/
def getRankValue (rank : Rank) : Nat :=
  RANKS.indexOf rank + 2

/-- One card of `generateDeck`; `suffix` stands for the random id suffix the
source appends after "-" for this card. -/
def mkCard (suffix : String) (s : Suit) (r : Rank) : CardData :=
  { suit := s
    rank := r
    code := rankCode r ++ suitCode s
    image := "https://deckofcardsapi.com/static/img/" ++ rankCode r ++ suitCode s ++ ".png"
    id := rankCode r ++ suitCode s ++ "-" ++ suffix }

/-- `generateDeck`: one card per (suit, rank) pair, suits outer, ranks inner.
The per-card `Math.random` id suffix is supplied by the oracle `suffix`. -/
def generateDeck (suffix : Suit → Rank → String) : List CardData :=
  (SUITS.map (fun s => RANKS.map (fun r => mkCard (suffix s r) s r))).flatten

/-- One swap `[a[i], a[j]] = [a[j], a[i]]` on a list; out-of-range indices
leave the list unchanged (never hit by the in-range shuffle loop). -/
def listSwap (l : List α) (i j : Nat) : List α :=
  match l[i]?, l[j]? with
  | some a, some b => (l.set i b).set j a
  | _, _ => l

/-- The Fisher-Yates loop of `shuffleDeck`/`reshuffleBoard`: for
`i = n, n-1, ..., 1` swap index `i` with `rand i % (i+1)`, the model of
`Math.floor(Math.random() * (i + 1))`. -/
def fyAux (rand : Nat → Nat) : List α → Nat → List α
  | l, 0 => l
  | l, i + 1 => fyAux rand (listSwap l (i + 1) (rand (i + 1) % (i + 2))) i

/-- `shuffleDeck` generalised over the element type (the same loop appears in
`shuffleDeck` and twice inside `reshuffleBoard`). -/
def shuffleList (rand : Nat → Nat) (l : List α) : List α :=
  fyAux rand l (l.length - 1)

/-- `shuffleDeck`. -/
def shuffleDeck (rand : Nat → Nat) (deck : List CardData) : List CardData :=
  shuffleList rand deck

/-- The cell a dealt card becomes: an Ace becomes a hole immediately. -/
def toCell (c : CardData) : Cell :=
  if c.rank = Rank.ACE then none else some c

/-- `deck.pop()`: removes and returns the last element. -/
def popCard (deck : List CardData) : Option (CardData × List CardData) :=
  match deck.getLast? with
  | none => none
  | some c => some (c, deck.dropLast)

/-- Deal one row of `n` cells by popping from the deck; `none` models the
"Deck ran out!" throw. -/
def dealRowAux : Nat → List CardData → Option (List Cell × List CardData)
  | 0, deck => some ([], deck)
  | n + 1, deck =>
    match popCard deck with
    | none => none
    | some (card, deck2) =>
      match dealRowAux n deck2 with
      | none => none
      | some (row, deck3) => some (toCell card :: row, deck3)

/-- `initializeBoard`: shuffle a fresh deck, deal 4 rows of 13 by popping,
turning Aces into holes. `rand` and `suffix` are the random oracles. -/
def initializeBoard (rand : Nat → Nat) (suffix : Suit → Rank → String) : Option Grid :=
  match dealRowAux 13 (shuffleDeck rand (generateDeck suffix)) with
  | none => none
  | some (row0, d1) =>
    match dealRowAux 13 d1 with
    | none => none
    | some (row1, d2) =>
      match dealRowAux 13 d2 with
      | none => none
      | some (row2, d3) =>
        match dealRowAux 13 d3 with
        | none => none
        | some (row3, _) => some [row0, row1, row2, row3]

/-- `grid[r][c]` as a total lookup (claims only use in-range indices). -/
def cellAt (g : Grid) (r c : Nat) : Cell :=
  (g.getD r []).getD c none

/-- `canPlaceCard`, rule by rule as in the source. -/
def canPlaceCard (card : CardData) (targetRow targetCol : Nat) (grid : Grid) : Bool :=
  if targetCol = 0 then
    decide (card.rank = Rank.TWO)
  else
    match cellAt grid targetRow (targetCol - 1) with
    | none => false
    | some leftNeighbor =>
      if leftNeighbor.rank = Rank.KING then false
      else if ¬ (card.suit = leftNeighbor.suit) then false
      else decide (getRankValue card.rank = getRankValue leftNeighbor.rank + 1)

/-- `isRowComplete`: cell 12 is a hole, cell 0 a TWO, and cells 0..11 run
through the row suit with rank value `i + 2`. -/
def isRowComplete (row : List Cell) : Bool :=
  match row.getD 12 none with
  | some _ => false
  | none =>
    match row.getD 0 none with
    | none => false
    | some c0 =>
      if ¬ (c0.rank = Rank.TWO) then false
      else
        (List.range 12).all fun i =>
          match row.getD i none with
          | none => false
          | some cell =>
            decide (cell.suit = c0.suit) && decide (getRankValue cell.rank = i + 2)

/-- `checkWinCondition`: every row complete. -/
def checkWinCondition (grid : Grid) : Bool :=
  grid.all isRowComplete

/-- The inner loop of `calculateScore`: walk the row after the TWO while the
cell exists, keeps the suit, and is the next rank, summing rank values. -/
def scoreScan (currentSuit : Suit) (currentRankVal : Nat) : List Cell → Nat
  | [] => 0
  | none :: _ => 0
  | some c :: rest =>
    if ¬ (c.suit = currentSuit) then 0
    else if getRankValue c.rank = currentRankVal + 1 then
      getRankValue c.rank + scoreScan currentSuit (getRankValue c.rank) rest
    else 0

/-- One row's contribution to `calculateScore`. -/
def rowScore (row : List Cell) : Nat :=
  match row.getD 0 none with
  | none => 0
  | some c0 =>
    if ¬ (c0.rank = Rank.TWO) then 0
    else 2 + scoreScan c0.suit 2 (row.drop 1)

/-- `calculateScore`: sum of the per-row scans. -/
def calculateScore (grid : Grid) : Nat :=
  (grid.map rowScore).sum

/-- The inner loop of `getLockedCards`, collecting ids instead of points. -/
def lockedScan (currentSuit : Suit) (currentRankVal : Nat) : List Cell → List String
  | [] => []
  | none :: _ => []
  | some c :: rest =>
    if ¬ (c.suit = currentSuit) then []
    else if getRankValue c.rank = currentRankVal + 1 then
      c.id :: lockedScan currentSuit (getRankValue c.rank) rest
    else []

/-- One row's locked ids. -/
def rowLockedIds (row : List Cell) : List String :=
  match row.getD 0 none with
  | none => []
  | some c0 =>
    if ¬ (c0.rank = Rank.TWO) then []
    else c0.id :: lockedScan c0.suit 2 (row.drop 1)

/-- `getLockedCards`: the set of locked ids, as the list the row scans insert
(all inserted ids are distinct on well-formed grids, so list membership is the
set membership of the source's `Set<string>`). -/
def getLockedCards (grid : Grid) : List String :=
  (grid.map rowLockedIds).flatten

/-- The continuation test of `reshuffleBoard`'s scan:
`curr && prev && curr.suit === prev.suit && value(curr) === value(prev) + 1`. -/
def contCheck (prev curr : Cell) : Bool :=
  match prev, curr with
  | some p, some c =>
    decide (c.suit = p.suit) && decide (getRankValue c.rank = getRankValue p.rank + 1)
  | _, _ => false

/-- The column loop of `reshuffleBoard`'s phase 1 for one row, threading the
`isSequence` flag and the previously kept cell. Returns the cards pushed to
`cardsToShuffle`, the positions pushed to `positionsToFill`, and the row with
the collected cells nulled. -/
def scanRowGo (r : Nat) : Nat → Bool → Cell → List Cell →
    List CardData × List (Nat × Nat) × List Cell
  | _, _, _, [] => ([], [], [])
  | c, isSeq, prev, cell :: rest =>
    if isSeq then
      if c = 0 then
        let res := scanRowGo r (c + 1) true cell rest
        (res.1, res.2.1, cell :: res.2.2)
      else if contCheck prev cell then
        let res := scanRowGo r (c + 1) true cell rest
        (res.1, res.2.1, cell :: res.2.2)
      else
        let res := scanRowGo r (c + 1) false none rest
        (cell.toList ++ res.1, (r, c) :: res.2.1, none :: res.2.2)
    else
      let res := scanRowGo r (c + 1) false none rest
      (cell.toList ++ res.1, (r, c) :: res.2.1, none :: res.2.2)

/-- Phase 1 of `reshuffleBoard` on one row: `isSequence` starts true iff cell 0
holds a TWO, then the column loop runs. -/
def scanRow (r : Nat) (row : List Cell) :
    List CardData × List (Nat × Nat) × List Cell :=
  let isSeq0 :=
    match row.getD 0 none with
    | none => false
    | some c0 => decide (c0.rank = Rank.TWO)
  scanRowGo r 0 isSeq0 none row

/-- Phase 1 of `reshuffleBoard` over the rows, in row order, threading the row
index exactly as the `for (let r = 0; ...)` loop does. -/
def collectRows : Nat → List (List Cell) → List CardData × List (Nat × Nat) × Grid
  | _, [] => ([], [], [])
  | r, row :: rest =>
    let res := scanRow r row
    let res2 := collectRows (r + 1) rest
    (res.1 ++ res2.1, res.2.1 ++ res2.2.1, res.2.2 :: res2.2.2)

/-- The collected `cardsToShuffle`, `positionsToFill` and the nulled grid. -/
def collectAll (grid : Grid) : List CardData × List (Nat × Nat) × Grid :=
  collectRows 0 grid

/-- `cardsToShuffle` of `reshuffleBoard` for a grid. -/
def cardsToShuffle (grid : Grid) : List CardData :=
  (collectAll grid).1

/-- `positionsToFill` of `reshuffleBoard` for a grid. -/
def positionsToFill (grid : Grid) : List (Nat × Nat) :=
  (collectAll grid).2.1

/-- `newGrid[r][c] = v`. -/
def setCell (g : Grid) (r c : Nat) (v : Cell) : Grid :=
  g.set r ((g.getD r []).set c v)

/-- Phase 4 of `reshuffleBoard`: write each fill item to its position. -/
def assignAll (g : Grid) : List ((Nat × Nat) × Cell) → Grid
  | [] => g
  | (p, v) :: rest => assignAll (setCell g p.1 p.2 v) rest

/-- `reshuffleBoard`: collect the free cards and positions, shuffle the cards,
pad with holes to the number of free positions, shuffle the fill items, and
write them back. `rand1` and `rand2` are the random oracles of the two
shuffle loops. -/
def reshuffleBoard (rand1 rand2 : Nat → Nat) (grid : Grid) : Grid :=
  let res := collectAll grid
  let cards := res.1
  let positions := res.2.1
  let nulled := res.2.2
  let shuffled := shuffleList rand1 cards
  let fillItems : List Cell :=
    shuffled.map some ++ List.replicate (positions.length - cards.length) none
  let fillItems2 := shuffleList rand2 fillItems
  assignAll nulled (positions.zip fillItems2)

/-! # Grid well-formedness -/

/-- All cells of the grid in row-major order. -/
def gridCells (g : Grid) : List Cell :=
  g.flatten

/-- The ids of all cards on the grid, row major. -/
def gridIds (g : Grid) : List String :=
  ((gridCells g).filterMap id).map (fun c => c.id)

/-- Structural validity: 4 rows of 13 cells. -/
def ValidGrid (g : Grid) : Prop :=
  g.length = 4 ∧ ∀ row ∈ g, row.length = 13

/-- Structural validity plus pairwise distinct card ids (the data model's
globally unique `id`). -/
def WellFormedGrid (g : Grid) : Prop :=
  ValidGrid g ∧ (gridIds g).Nodup

instance : DecidablePred ValidGrid := fun g => by
  unfold ValidGrid; infer_instance

instance : DecidablePred WellFormedGrid := fun g => by
  unfold WellFormedGrid; infer_instance

/-- How far the continuation test carries the sequence past a kept cell. -/
def lockedExtLen (prev : Cell) : List Cell → Nat
  | [] => 0
  | cell :: rest => if contCheck prev cell then 1 + lockedExtLen cell rest else 0

/-- The break column of a row: cells before it are kept, cells from it on are
collected. -/
def rowBreak (row : List Cell) : Nat :=
  match row.getD 0 none with
  | none => 0
  | some c0 => if c0.rank = Rank.TWO then 1 + lockedExtLen (some c0) (row.drop 1) else 0

/-- The `fillItems` list of `reshuffleBoard` before its second shuffle. -/
def fillItemsOf (rand1 : Nat → Nat) (g : Grid) : List Cell :=
  (shuffleList rand1 (cardsToShuffle g)).map some ++
    List.replicate ((positionsToFill g).length - (cardsToShuffle g).length) none

/-- The `fillItems` list of `reshuffleBoard` after its second shuffle: the
cells written back into the free positions, in order. -/
def fillStream (rand1 rand2 : Nat → Nat) (g : Grid) : List Cell :=
  shuffleList rand2 (fillItemsOf rand1 g)

/-- The ids of the cards of one row. -/
def rowIds (row : List Cell) : List String :=
  (row.filterMap id).map (fun c => c.id)

/-- The pointwise reading of a complete row: column 12 is a gap, column 0 a
TWO, and column i holds a card of the row suit with rank value i + 2. -/
def RowOk (row : List Cell) : Prop :=
  row.getD 12 none = none ∧
  ∃ c0, row.getD 0 none = some c0 ∧ c0.rank = Rank.TWO ∧
    ∀ i, i < 12 → ∃ cell, row.getD i none = some cell ∧ cell.suit = c0.suit ∧
      getRankValue cell.rank = i + 2

/-- The 48 non-Ace (suit, rank) pairs, suits outer, ranks inner. -/
def nonAcePairs : List (Suit × Rank) :=
  (SUITS.map (fun s => (RANKS.filter (fun r => decide (¬ r = Rank.ACE))).map
    (fun r => (s, r)))).flatten

/-! ## Concrete boards used to witness the theorems -/

/-- A bare test card (the `code` and `image` fields play no role in the rules). -/
def tCard (s : Suit) (r : Rank) (i : String) : CardData :=
  { suit := s, rank := r, code := "", image := "", id := i }

/-- A finished hearts row: 2..K of hearts then a gap. -/
def heartsRun : List Cell :=
  [some (tCard .HEARTS .TWO "h2"), some (tCard .HEARTS .THREE "h3"),
   some (tCard .HEARTS .FOUR "h4"), some (tCard .HEARTS .FIVE "h5"),
   some (tCard .HEARTS .SIX "h6"), some (tCard .HEARTS .SEVEN "h7"),
   some (tCard .HEARTS .EIGHT "h8"), some (tCard .HEARTS .NINE "h9"),
   some (tCard .HEARTS .TEN "h10"), some (tCard .HEARTS .JACK "hJ"),
   some (tCard .HEARTS .QUEEN "hQ"), some (tCard .HEARTS .KING "hK"), none]

/-- A finished spades row. -/
def spadesRun : List Cell :=
  [some (tCard .SPADES .TWO "s2"), some (tCard .SPADES .THREE "s3"),
   some (tCard .SPADES .FOUR "s4"), some (tCard .SPADES .FIVE "s5"),
   some (tCard .SPADES .SIX "s6"), some (tCard .SPADES .SEVEN "s7"),
   some (tCard .SPADES .EIGHT "s8"), some (tCard .SPADES .NINE "s9"),
   some (tCard .SPADES .TEN "s10"), some (tCard .SPADES .JACK "sJ"),
   some (tCard .SPADES .QUEEN "sQ"), some (tCard .SPADES .KING "sK"), none]

/-- A finished clubs row. -/
def clubsRun : List Cell :=
  [some (tCard .CLUBS .TWO "c2"), some (tCard .CLUBS .THREE "c3"),
   some (tCard .CLUBS .FOUR "c4"), some (tCard .CLUBS .FIVE "c5"),
   some (tCard .CLUBS .SIX "c6"), some (tCard .CLUBS .SEVEN "c7"),
   some (tCard .CLUBS .EIGHT "c8"), some (tCard .CLUBS .NINE "c9"),
   some (tCard .CLUBS .TEN "c10"), some (tCard .CLUBS .JACK "cJ"),
   some (tCard .CLUBS .QUEEN "cQ"), some (tCard .CLUBS .KING "cK"), none]

/-- A finished diamonds row. -/
def diamondsRun : List Cell :=
  [some (tCard .DIAMONDS .TWO "d2"), some (tCard .DIAMONDS .THREE "d3"),
   some (tCard .DIAMONDS .FOUR "d4"), some (tCard .DIAMONDS .FIVE "d5"),
   some (tCard .DIAMONDS .SIX "d6"), some (tCard .DIAMONDS .SEVEN "d7"),
   some (tCard .DIAMONDS .EIGHT "d8"), some (tCard .DIAMONDS .NINE "d9"),
   some (tCard .DIAMONDS .TEN "d10"), some (tCard .DIAMONDS .JACK "dJ"),
   some (tCard .DIAMONDS .QUEEN "dQ"), some (tCard .DIAMONDS .KING "dK"), none]

/-- A fully won board. -/
def winGrid : Grid := [heartsRun, spadesRun, clubsRun, diamondsRun]

/-- An empty row. -/
def emptyRow : List Cell := List.replicate 13 none

/-- A row locked up to column 1 (2H 3H) and broken at column 2 (9C). -/
def mixedRow : List Cell :=
  [some (tCard .HEARTS .TWO "m2h"), some (tCard .HEARTS .THREE "m3h"),
   some (tCard .CLUBS .NINE "m9c"), none, none, none, none, none, none, none,
   none, none, none]

/-- A row whose only locked card is its leading 2S. -/
def spadeStart : List Cell :=
  [some (tCard .SPADES .TWO "m2s"), some (tCard .DIAMONDS .FIVE "m5d"),
   none, none, none, none, none, none, none, none, none, none, none]

/-- A playing board with two partial locked prefixes. -/
def mixedGrid : Grid := [mixedRow, spadeStart, emptyRow, emptyRow]

/-- A board with one finished hearts row and three incomplete rows, one of
which still has a locked 2S. -/
def c8Grid : Grid := [heartsRun, spadeStart, emptyRow, emptyRow]

/-- The ids of the finished hearts row's twelve cards. -/
def hearts12Ids : List String :=
  ["h2", "h3", "h4", "h5", "h6", "h7", "h8", "h9", "h10", "hJ", "hQ", "hK"]

/-! # Shuffle lemmas: the Fisher-Yates loop permutes its input -/

theorem cons_set_perm : ∀ (t : List α) (m : Nat) (x b : α), t[m]? = some b →
    (b :: t.set m x).Perm (x :: t) := by
  intro t
  induction t with
  | nil => intro m x b h; simp at h
  | cons y t ih =>
    intro m x b h
    cases m with
    | zero =>
      simp only [List.getElem?_cons_zero, Option.some.injEq] at h
      subst h
      simpa using List.Perm.swap x y t
    | succ k =>
      simp only [List.getElem?_cons_succ] at h
      have h1 : (b :: y :: t.set k x).Perm (y :: b :: t.set k x) := List.Perm.swap y b _
      have h2 : (y :: b :: t.set k x).Perm (y :: x :: t) := (ih k x b h).cons y
      have h3 : (y :: x :: t).Perm (x :: y :: t) := List.Perm.swap x y t
      exact (h1.trans h2).trans h3

theorem set_swap_perm : ∀ (l : List α) (i j : Nat) (a b : α),
    l[i]? = some a → l[j]? = some b → ((l.set i b).set j a).Perm l := by
  intro l
  induction l with
  | nil => intro i j a b h1 _; simp at h1
  | cons x t ih =>
    intro i j a b h1 h2
    cases i with
    | zero =>
      simp only [List.getElem?_cons_zero, Option.some.injEq] at h1
      subst h1
      cases j with
      | zero =>
        simp only [List.getElem?_cons_zero, Option.some.injEq] at h2
        subst h2
        simp
      | succ m =>
        simp only [List.getElem?_cons_succ] at h2
        simpa using cons_set_perm t m x b h2
    | succ n =>
      simp only [List.getElem?_cons_succ] at h1
      cases j with
      | zero =>
        simp only [List.getElem?_cons_zero, Option.some.injEq] at h2
        subst h2
        simpa using cons_set_perm t n x a h1
      | succ m =>
        simp only [List.getElem?_cons_succ] at h2
        simpa using (ih n m a b h1 h2).cons x

theorem listSwap_perm (l : List α) (i j : Nat) : (listSwap l i j).Perm l := by
  unfold listSwap
  cases h1 : l[i]? with
  | none => exact List.Perm.refl l
  | some a =>
    cases h2 : l[j]? with
    | none => exact List.Perm.refl l
    | some b => exact set_swap_perm l i j a b h1 h2

theorem fyAux_perm (rand : Nat → Nat) : ∀ (n : Nat) (l : List α), (fyAux rand l n).Perm l := by
  intro n
  induction n with
  | zero => intro l; exact List.Perm.refl l
  | succ i ih =>
    intro l
    exact (ih _).trans (listSwap_perm l (i + 1) (rand (i + 1) % (i + 2)))

theorem shuffleList_perm (rand : Nat → Nat) (l : List α) : (shuffleList rand l).Perm l :=
  fyAux_perm rand (l.length - 1) l

theorem shuffleList_length (rand : Nat → Nat) (l : List α) :
    (shuffleList rand l).length = l.length :=
  (shuffleList_perm rand l).length_eq

/-! # Characterization of the reshuffle scan -/

theorem lockedExtLen_le (l : List Cell) : ∀ p : Cell, lockedExtLen p l ≤ l.length := by
  induction l with
  | nil => intro p; simp [lockedExtLen]
  | cons cell rest ih =>
    intro p
    cases h : contCheck p cell with
    | true =>
      have := ih cell
      simp only [lockedExtLen, h, if_true, List.length_cons]
      omega
    | false =>
      simp [lockedExtLen, h]

theorem rowBreak_le (row : List Cell) : rowBreak row ≤ row.length := by
  cases row with
  | nil => simp [rowBreak, List.getD]
  | cons cell rest =>
    cases cell with
    | none => simp [rowBreak]
    | some c0 =>
      by_cases ht : c0.rank = Rank.TWO
      · have := lockedExtLen_le rest (some c0)
        simp only [rowBreak, List.getD_cons_zero, if_pos ht, List.drop_succ_cons,
          List.drop_zero, List.length_cons]
        omega
      · simp [rowBreak, ht]

theorem filterMap_id_cons (cell : Cell) (rest : List Cell) :
    (cell :: rest).filterMap id = cell.toList ++ rest.filterMap id := by
  cases cell <;> simp

theorem scanRowGo_false (r : Nat) (l : List Cell) : ∀ (c : Nat) (prev : Cell),
    scanRowGo r c false prev l =
      (l.filterMap id,
       (List.range' c l.length).map (fun k => (r, k)),
       List.replicate l.length none) := by
  induction l with
  | nil => intro c prev; simp [scanRowGo]
  | cons cell rest ih =>
    intro c prev
    simp only [scanRowGo, Bool.false_eq_true, if_false, ih (c + 1) none,
      List.length_cons, List.range'_succ, List.map_cons, List.replicate_succ,
      filterMap_id_cons]

theorem scanRowGo_true (r : Nat) : ∀ (l : List Cell) (c : Nat) (p : Cell), c ≠ 0 →
    scanRowGo r c true p l =
      ((l.drop (lockedExtLen p l)).filterMap id,
       (List.range' (c + lockedExtLen p l) (l.length - lockedExtLen p l)).map (fun k => (r, k)),
       l.take (lockedExtLen p l) ++ List.replicate (l.length - lockedExtLen p l) none) := by
  intro l
  induction l with
  | nil => intro c p hc; simp [scanRowGo, lockedExtLen]
  | cons cell rest ih =>
    intro c p hc
    cases hcont : contCheck p cell with
    | true =>
      have hrec := ih (c + 1) cell (Nat.succ_ne_zero c)
      have hb := lockedExtLen_le rest cell
      have h1 : c + (1 + lockedExtLen cell rest) = c + 1 + lockedExtLen cell rest := by omega
      have h2 : rest.length + 1 - (1 + lockedExtLen cell rest) =
          rest.length - lockedExtLen cell rest := by omega
      have h4 : (1 + lockedExtLen cell rest) = lockedExtLen cell rest + 1 := by omega
      have h5 : c + (lockedExtLen cell rest + 1) = c + 1 + lockedExtLen cell rest := by omega
      simp only [scanRowGo, if_true, if_neg hc, hcont, hrec, lockedExtLen,
        List.length_cons, Prod.mk.injEq, h1, h2, h4, List.drop_succ_cons,
        List.take_succ_cons, List.cons_append]
      simp [h5]
    | false =>
      simp only [scanRowGo, if_neg hc, hcont, Bool.false_eq_true, if_false, if_true,
        scanRowGo_false r rest (c + 1) none, lockedExtLen, List.length_cons,
        List.drop_zero, List.take_zero, List.nil_append, Nat.sub_zero,
        List.range'_succ, List.map_cons, List.replicate_succ, filterMap_id_cons]
      simp

theorem scanRow_eq (r : Nat) (row : List Cell) :
    scanRow r row =
      ((row.drop (rowBreak row)).filterMap id,
       (List.range' (rowBreak row) (row.length - rowBreak row)).map (fun k => (r, k)),
       row.take (rowBreak row) ++ List.replicate (row.length - rowBreak row) none) := by
  cases row with
  | nil => simp [scanRow, scanRowGo, rowBreak, List.getD]
  | cons cell rest =>
    cases cell with
    | none =>
      simp only [scanRow, rowBreak, List.getD_cons_zero]
      simp only [scanRowGo_false r (none :: rest) 0 none, List.drop_zero, List.take_zero,
        Nat.sub_zero, List.nil_append]
    | some c0 =>
      by_cases ht : c0.rank = Rank.TWO
      · have hd : decide (c0.rank = Rank.TWO) = true := decide_eq_true ht
        have hone : (1 : Nat) ≠ 0 := one_ne_zero
        have hb := lockedExtLen_le rest (some c0)
        have h1 : 1 + lockedExtLen (some c0) rest = lockedExtLen (some c0) rest + 1 := by
          omega
        have h2 : (some c0 :: rest).length - (1 + lockedExtLen (some c0) rest) =
            rest.length - lockedExtLen (some c0) rest := by
          simp only [List.length_cons]; omega
        simp only [scanRow, rowBreak, List.getD_cons_zero, hd, if_pos ht,
          List.drop_succ_cons, List.drop_zero]
        simp only [scanRowGo, if_true, if_pos rfl, scanRowGo_true r rest 1 (some c0) hone,
          Prod.mk.injEq, h2, h1, List.drop_succ_cons, List.take_succ_cons]
        simp
      · have hd : decide (c0.rank = Rank.TWO) = false := decide_eq_false ht
        simp only [scanRow, rowBreak, List.getD_cons_zero, hd, if_neg ht]
        simp only [scanRowGo_false r (some c0 :: rest) 0 none, List.drop_zero,
          List.take_zero, Nat.sub_zero, List.nil_append]

/-! # The lock scan, the score scan and the reshuffle scan agree -/

theorem getRankValue_two : getRankValue Rank.TWO = 2 := by decide

theorem lockedScan_eq : ∀ (l : List Cell) (p : CardData),
    lockedScan p.suit (getRankValue p.rank) l =
      ((l.take (lockedExtLen (some p) l)).filterMap id).map (fun c => c.id) := by
  intro l
  induction l with
  | nil => intro p; simp [lockedScan, lockedExtLen]
  | cons cell rest ih =>
    intro p
    cases cell with
    | none => simp [lockedScan, lockedExtLen, contCheck]
    | some c =>
      by_cases hsuit : c.suit = p.suit
      · by_cases hrank : getRankValue c.rank = getRankValue p.rank + 1
        · have hcont : contCheck (some p) (some c) = true := by
            simp [contCheck, hsuit, hrank]
          have hrec := ih c
          rw [hsuit] at hrec
          simp only [lockedScan, hsuit, not_true, if_neg, if_pos hrank, if_false,
            lockedExtLen, hcont, if_true]
          have h1 : 1 + lockedExtLen (some c) rest = lockedExtLen (some c) rest + 1 := by
            omega
          rw [h1, List.take_succ_cons, filterMap_id_cons]
          simp [hrec]
        · have hcont : contCheck (some p) (some c) = false := by
            simp [contCheck, hrank]
          simp [lockedScan, hsuit, hrank, lockedExtLen, hcont]
      · have hcont : contCheck (some p) (some c) = false := by
          simp [contCheck, hsuit]
        simp [lockedScan, hsuit, lockedExtLen, hcont]

theorem rowLockedIds_eq (row : List Cell) :
    rowLockedIds row = ((row.take (rowBreak row)).filterMap id).map (fun c => c.id) := by
  cases row with
  | nil => simp [rowLockedIds, rowBreak, List.getD]
  | cons cell rest =>
    cases cell with
    | none => simp [rowLockedIds, rowBreak]
    | some c0 =>
      by_cases ht : c0.rank = Rank.TWO
      · have h2 : lockedScan c0.suit 2 rest =
            ((rest.take (lockedExtLen (some c0) rest)).filterMap id).map (fun c => c.id) := by
          have := lockedScan_eq rest c0
          rw [ht, getRankValue_two] at this
          exact this
        have hnn : ¬ ¬ (c0.rank = Rank.TWO) := not_not_intro ht
        simp only [rowLockedIds, rowBreak, List.getD_cons_zero, if_pos ht, if_neg hnn,
          List.drop_succ_cons, List.drop_zero]
        have h1 : 1 + lockedExtLen (some c0) rest = lockedExtLen (some c0) rest + 1 := by
          omega
        rw [h1, List.take_succ_cons, filterMap_id_cons]
        simp [h2]
      · simp [rowLockedIds, rowBreak, ht]

theorem scoreScan_eq : ∀ (l : List Cell) (p : CardData),
    scoreScan p.suit (getRankValue p.rank) l =
      (((l.take (lockedExtLen (some p) l)).filterMap id).map
        (fun c => getRankValue c.rank)).sum := by
  intro l
  induction l with
  | nil => intro p; simp [scoreScan, lockedExtLen]
  | cons cell rest ih =>
    intro p
    cases cell with
    | none => simp [scoreScan, lockedExtLen, contCheck]
    | some c =>
      by_cases hsuit : c.suit = p.suit
      · by_cases hrank : getRankValue c.rank = getRankValue p.rank + 1
        · have hcont : contCheck (some p) (some c) = true := by
            simp [contCheck, hsuit, hrank]
          have hrec := ih c
          rw [hsuit] at hrec
          simp only [scoreScan, hsuit, not_true, if_neg, if_pos hrank, if_false,
            lockedExtLen, hcont, if_true]
          have h1 : 1 + lockedExtLen (some c) rest = lockedExtLen (some c) rest + 1 := by
            omega
          rw [h1, List.take_succ_cons, filterMap_id_cons]
          simp [hrec]
        · have hcont : contCheck (some p) (some c) = false := by
            simp [contCheck, hrank]
          simp [scoreScan, hsuit, hrank, lockedExtLen, hcont]
      · have hcont : contCheck (some p) (some c) = false := by
          simp [contCheck, hsuit]
        simp [scoreScan, hsuit, lockedExtLen, hcont]

theorem rowScore_eq (row : List Cell) :
    rowScore row =
      (((row.take (rowBreak row)).filterMap id).map (fun c => getRankValue c.rank)).sum := by
  cases row with
  | nil => simp [rowScore, rowBreak, List.getD]
  | cons cell rest =>
    cases cell with
    | none => simp [rowScore, rowBreak]
    | some c0 =>
      by_cases ht : c0.rank = Rank.TWO
      · have h2 : scoreScan c0.suit 2 rest =
            (((rest.take (lockedExtLen (some c0) rest)).filterMap id).map
              (fun c => getRankValue c.rank)).sum := by
          have := scoreScan_eq rest c0
          rw [ht, getRankValue_two] at this
          exact this
        have hnn : ¬ ¬ (c0.rank = Rank.TWO) := not_not_intro ht
        simp only [rowScore, rowBreak, List.getD_cons_zero, if_pos ht, if_neg hnn,
          List.drop_succ_cons, List.drop_zero]
        have h1 : 1 + lockedExtLen (some c0) rest = lockedExtLen (some c0) rest + 1 := by
          omega
        rw [h1, List.take_succ_cons, filterMap_id_cons]
        simp [h2, ht, getRankValue_two]
      · simp [rowScore, rowBreak, ht]

/-! # Cells before the break hold cards, and their ids are the locked ids -/

theorem getD_some_lt_length {row : List Cell} {c : Nat} {card : CardData}
    (h : row.getD c none = some card) : c < row.length := by
  by_contra hge
  rw [List.getD_eq_default row none (by omega)] at h
  exact Option.noConfusion h

theorem getD_some_getElem {row : List Cell} {c : Nat} {card : CardData}
    (h : row.getD c none = some card) : row[c]? = some (some card) := by
  rw [List.getD_eq_getElem?_getD] at h
  cases hx : row[c]? with
  | none => rw [hx] at h; exact Option.noConfusion h
  | some x => rw [hx] at h; simp at h; rw [h]

theorem getD_drop (l : List Cell) (n i : Nat) :
    (l.drop n).getD i none = l.getD (n + i) none := by
  rw [List.getD_eq_getElem?_getD, List.getD_eq_getElem?_getD, List.getElem?_drop]

theorem lockedExt_isSome : ∀ (l : List Cell) (p : Cell) (c : Nat),
    c < lockedExtLen p l → ∃ card, l.getD c none = some card := by
  intro l
  induction l with
  | nil => intro p c h; simp [lockedExtLen] at h
  | cons cell rest ih =>
    intro p c h
    cases hcont : contCheck p cell with
    | false => rw [lockedExtLen, hcont] at h; simp at h
    | true =>
      rw [lockedExtLen, hcont, if_pos rfl] at h
      cases c with
      | zero =>
        cases cell with
        | none => simp [contCheck] at hcont
        | some card => exact ⟨card, by simp⟩
      | succ k =>
        have := ih cell k (by omega)
        simpa using this

theorem break_cell_some (row : List Cell) (c : Nat) (h : c < rowBreak row) :
    ∃ card, row.getD c none = some card ∧ card.id ∈ rowLockedIds row := by
  have hsome : ∃ card, row.getD c none = some card := by
    cases hrow : row with
    | nil => rw [hrow] at h; simp [rowBreak, List.getD] at h
    | cons cell rest =>
      rw [hrow] at h
      cases cell with
      | none => simp [rowBreak] at h
      | some c0 =>
        by_cases ht : c0.rank = Rank.TWO
        · cases c with
          | zero => exact ⟨c0, by simp⟩
          | succ k =>
            simp only [rowBreak, List.getD_cons_zero, if_pos ht, List.drop_succ_cons,
              List.drop_zero] at h
            have := lockedExt_isSome rest (some c0) k (by omega)
            simpa using this
        · simp [rowBreak, ht] at h
  obtain ⟨card, hcard⟩ := hsome
  refine ⟨card, hcard, ?_⟩
  rw [rowLockedIds_eq]
  have hmem : (some card) ∈ row.take (rowBreak row) := by
    have hq : (row.take (rowBreak row))[c]? = some (some card) := by
      rw [List.getElem?_take, if_pos h]
      exact getD_some_getElem hcard
    rw [List.mem_iff_getElem?]
    exact ⟨c, hq⟩
  have : card ∈ (row.take (rowBreak row)).filterMap id :=
    List.mem_filterMap.mpr ⟨some card, hmem, rfl⟩
  exact List.mem_map.mpr ⟨card, this, rfl⟩

/-! # The write-back phase fills each row's free suffix in order -/

theorem getElem?_some_lt {l : List α} {i : Nat} {a : α} (h : l[i]? = some a) :
    i < l.length := by
  by_contra hge
  rw [List.getElem?_eq_none (by omega)] at h
  exact Option.noConfusion h

theorem set_self_of_getElem : ∀ (l : List α) (i : Nat) (a : α),
    l[i]? = some a → l.set i a = l := by
  intro l
  induction l with
  | nil => intro i a h; simp at h
  | cons x t ih =>
    intro i a h
    cases i with
    | zero =>
      simp only [List.getElem?_cons_zero, Option.some.injEq] at h
      subst h
      simp
    | succ n =>
      simp only [List.getElem?_cons_succ] at h
      simp [ih n a h]

theorem take_succ_set : ∀ (l : List α) (i : Nat) (v : α), i < l.length →
    (l.set i v).take (i + 1) = l.take i ++ [v] := by
  intro l
  induction l with
  | nil => intro i v h; simp at h
  | cons x t ih =>
    intro i v h
    cases i with
    | zero => simp
    | succ n =>
      simp only [List.length_cons] at h
      simp only [List.set_cons_succ, List.take_succ_cons]
      rw [ih n v (by omega)]
      simp

theorem getD_of_getElem? {g : Grid} {r : Nat} {row : List Cell}
    (h : g[r]? = some row) : g.getD r [] = row := by
  rw [List.getD_eq_getElem?_getD, h]
  rfl

theorem assignAll_append (g : Grid) (L1 L2 : List ((Nat × Nat) × Cell)) :
    assignAll g (L1 ++ L2) = assignAll (assignAll g L1) L2 := by
  induction L1 generalizing g with
  | nil => simp [assignAll]
  | cons p rest ih => simp [assignAll, ih]

theorem assignRow_chunk : ∀ (chunk : List Cell) (g : Grid) (r b : Nat) (row : List Cell),
    g[r]? = some row → b + chunk.length = row.length →
    assignAll g (((List.range' b chunk.length).map (fun c => (r, c))).zip chunk) =
      g.set r (row.take b ++ chunk) := by
  intro chunk
  induction chunk with
  | nil =>
    intro g r b row h hlen
    have hb : b = row.length := by simpa using hlen
    subst hb
    rw [List.take_length, List.append_nil, set_self_of_getElem g r row h]
    simp [assignAll]
  | cons v chunk ih =>
    intro g r b row h hlen
    have hb : b < row.length := by
      simp only [List.length_cons] at hlen
      omega
    have hgr : g.getD r [] = row := getD_of_getElem? h
    have hr : r < g.length := getElem?_some_lt h
    simp only [List.length_cons, List.range'_succ, List.map_cons, List.zip_cons_cons,
      assignAll, setCell, hgr]
    have h2 : (g.set r (row.set b v))[r]? = some (row.set b v) :=
      List.getElem?_set_self (by simpa using hr)
    have hlen2 : (b + 1) + chunk.length = (row.set b v).length := by
      simp only [List.length_set, List.length_cons] at hlen ⊢
      omega
    have hstep := ih (g.set r (row.set b v)) r (b + 1) (row.set b v) h2 hlen2
    simp only [List.zip] at hstep
    rw [hstep, List.set_set, take_succ_set row b v hb]
    simp

/-! # Shape of a full reshuffle on a 4x13 grid -/

theorem reshuffleBoard_def (r1 r2 : Nat → Nat) (g : Grid) :
    reshuffleBoard r1 r2 g =
      assignAll (collectAll g).2.2 ((positionsToFill g).zip (fillStream r1 r2 g)) := rfl

theorem collect_four (row0 row1 row2 row3 : List Cell) :
    collectAll [row0, row1, row2, row3] =
      ((row0.drop (rowBreak row0)).filterMap id ++
         ((row1.drop (rowBreak row1)).filterMap id ++
           ((row2.drop (rowBreak row2)).filterMap id ++
             (row3.drop (rowBreak row3)).filterMap id)),
       (List.range' (rowBreak row0) (row0.length - rowBreak row0)).map (fun k => (0, k)) ++
         ((List.range' (rowBreak row1) (row1.length - rowBreak row1)).map (fun k => (1, k)) ++
           ((List.range' (rowBreak row2) (row2.length - rowBreak row2)).map (fun k => (2, k)) ++
             (List.range' (rowBreak row3) (row3.length - rowBreak row3)).map (fun k => (3, k)))),
       [row0.take (rowBreak row0) ++ List.replicate (row0.length - rowBreak row0) none,
        row1.take (rowBreak row1) ++ List.replicate (row1.length - rowBreak row1) none,
        row2.take (rowBreak row2) ++ List.replicate (row2.length - rowBreak row2) none,
        row3.take (rowBreak row3) ++ List.replicate (row3.length - rowBreak row3) none]) := by
  simp [collectAll, collectRows, scanRow_eq]

theorem take_of_prefix_append (row : List Cell) (b : Nat) (hb : b ≤ row.length)
    (tail : List Cell) : (row.take b ++ tail).take b = row.take b := by
  have h2 : b - (row.take b).length = 0 := by
    rw [List.length_take]
    omega
  rw [List.take_append_eq_append_take, h2, List.take_zero, List.append_nil,
    List.take_take, Nat.min_self]

theorem assignRow_chunk2 (chunk : List Cell) (g : Grid) (r b k : Nat) (row : List Cell)
    (h : g[r]? = some row) (hk : chunk.length = k) (hlen : b + k = row.length) :
    assignAll g (((List.range' b k).map (fun c => (r, c))).zip chunk) =
      g.set r (row.take b ++ chunk) := by
  subst hk
  exact assignRow_chunk chunk g r b row h hlen

theorem reshuffleBoard_four (r1 r2 : Nat → Nat) (row0 row1 row2 row3 : List Cell)
    (h0 : row0.length = 13) (h1 : row1.length = 13) (h2 : row2.length = 13)
    (h3 : row3.length = 13) :
    reshuffleBoard r1 r2 [row0, row1, row2, row3] =
      [row0.take (rowBreak row0) ++
         (fillStream r1 r2 [row0, row1, row2, row3]).take (13 - rowBreak row0),
       row1.take (rowBreak row1) ++
         ((fillStream r1 r2 [row0, row1, row2, row3]).drop (13 - rowBreak row0)).take
           (13 - rowBreak row1),
       row2.take (rowBreak row2) ++
         (((fillStream r1 r2 [row0, row1, row2, row3]).drop (13 - rowBreak row0)).drop
             (13 - rowBreak row1)).take (13 - rowBreak row2),
       row3.take (rowBreak row3) ++
         (((fillStream r1 r2 [row0, row1, row2, row3]).drop (13 - rowBreak row0)).drop
             (13 - rowBreak row1)).drop (13 - rowBreak row2)] := by
  have hb0 : rowBreak row0 ≤ 13 := by have := rowBreak_le row0; omega
  have hb1 : rowBreak row1 ≤ 13 := by have := rowBreak_le row1; omega
  have hb2 : rowBreak row2 ≤ 13 := by have := rowBreak_le row2; omega
  have hb3 : rowBreak row3 ≤ 13 := by have := rowBreak_le row3; omega
  have hcol := collect_four row0 row1 row2 row3
  rw [h0, h1, h2, h3] at hcol
  have hcards : cardsToShuffle [row0, row1, row2, row3] =
      (row0.drop (rowBreak row0)).filterMap id ++
        ((row1.drop (rowBreak row1)).filterMap id ++
          ((row2.drop (rowBreak row2)).filterMap id ++
            (row3.drop (rowBreak row3)).filterMap id)) := by
    rw [cardsToShuffle, hcol]
  have hpos : positionsToFill [row0, row1, row2, row3] =
      (List.range' (rowBreak row0) (13 - rowBreak row0)).map (fun k => ((0 : Nat), k)) ++
        ((List.range' (rowBreak row1) (13 - rowBreak row1)).map (fun k => ((1 : Nat), k)) ++
          ((List.range' (rowBreak row2) (13 - rowBreak row2)).map (fun k => ((2 : Nat), k)) ++
            (List.range' (rowBreak row3) (13 - rowBreak row3)).map (fun k => ((3 : Nat), k)))) := by
    rw [positionsToFill, hcol]
  have hcardlen0 : ((row0.drop (rowBreak row0)).filterMap id).length ≤ 13 - rowBreak row0 := by
    have := List.length_filterMap_le id (row0.drop (rowBreak row0))
    rw [List.length_drop, h0] at this
    exact this
  have hcardlen1 : ((row1.drop (rowBreak row1)).filterMap id).length ≤ 13 - rowBreak row1 := by
    have := List.length_filterMap_le id (row1.drop (rowBreak row1))
    rw [List.length_drop, h1] at this
    exact this
  have hcardlen2 : ((row2.drop (rowBreak row2)).filterMap id).length ≤ 13 - rowBreak row2 := by
    have := List.length_filterMap_le id (row2.drop (rowBreak row2))
    rw [List.length_drop, h2] at this
    exact this
  have hcardlen3 : ((row3.drop (rowBreak row3)).filterMap id).length ≤ 13 - rowBreak row3 := by
    have := List.length_filterMap_le id (row3.drop (rowBreak row3))
    rw [List.length_drop, h3] at this
    exact this
  have hposlen : (positionsToFill [row0, row1, row2, row3]).length =
      (13 - rowBreak row0) + ((13 - rowBreak row1) +
        ((13 - rowBreak row2) + (13 - rowBreak row3))) := by
    rw [hpos]
    simp [List.length_range']
  have hFlen : (fillStream r1 r2 [row0, row1, row2, row3]).length =
      (13 - rowBreak row0) + ((13 - rowBreak row1) +
        ((13 - rowBreak row2) + (13 - rowBreak row3))) := by
    rw [fillStream, shuffleList_length, fillItemsOf, List.length_append,
      List.length_map, shuffleList_length, List.length_replicate, hposlen, hcards]
    simp only [List.length_append]
    omega
  set F := fillStream r1 r2 [row0, row1, row2, row3] with hF
  have hsplit3 : ((F.drop (13 - rowBreak row0)).drop (13 - rowBreak row1)).take
        (13 - rowBreak row2) ++
      ((F.drop (13 - rowBreak row0)).drop (13 - rowBreak row1)).drop (13 - rowBreak row2) =
      (F.drop (13 - rowBreak row0)).drop (13 - rowBreak row1) :=
    List.take_append_drop _ _
  have hsplit2 : (F.drop (13 - rowBreak row0)).take (13 - rowBreak row1) ++
      (F.drop (13 - rowBreak row0)).drop (13 - rowBreak row1) =
      F.drop (13 - rowBreak row0) :=
    List.take_append_drop _ _
  have hsplit1 : F.take (13 - rowBreak row0) ++ F.drop (13 - rowBreak row0) = F :=
    List.take_append_drop _ _
  have hlenC0 : (F.take (13 - rowBreak row0)).length = 13 - rowBreak row0 := by
    rw [List.length_take]
    omega
  have hlenC1 : ((F.drop (13 - rowBreak row0)).take (13 - rowBreak row1)).length =
      13 - rowBreak row1 := by
    rw [List.length_take, List.length_drop]
    omega
  have hlenC2 : (((F.drop (13 - rowBreak row0)).drop (13 - rowBreak row1)).take
      (13 - rowBreak row2)).length = 13 - rowBreak row2 := by
    rw [List.length_take, List.length_drop, List.length_drop]
    omega
  have hlenC3 : (((F.drop (13 - rowBreak row0)).drop (13 - rowBreak row1)).drop
      (13 - rowBreak row2)).length = 13 - rowBreak row3 := by
    rw [List.length_drop, List.length_drop, List.length_drop]
    omega
  have hP0len : ((List.range' (rowBreak row0) (13 - rowBreak row0)).map
      (fun k => ((0 : Nat), k))).length = 13 - rowBreak row0 := by
    simp [List.length_range']
  have hP1len : ((List.range' (rowBreak row1) (13 - rowBreak row1)).map
      (fun k => ((1 : Nat), k))).length = 13 - rowBreak row1 := by
    simp [List.length_range']
  have hP2len : ((List.range' (rowBreak row2) (13 - rowBreak row2)).map
      (fun k => ((2 : Nat), k))).length = 13 - rowBreak row2 := by
    simp [List.length_range']
  have hzip : (positionsToFill [row0, row1, row2, row3]).zip F =
      ((List.range' (rowBreak row0) (13 - rowBreak row0)).map (fun k => ((0 : Nat), k))).zip
          (F.take (13 - rowBreak row0)) ++
        (((List.range' (rowBreak row1) (13 - rowBreak row1)).map (fun k => ((1 : Nat), k))).zip
            ((F.drop (13 - rowBreak row0)).take (13 - rowBreak row1)) ++
          (((List.range' (rowBreak row2) (13 - rowBreak row2)).map (fun k => ((2 : Nat), k))).zip
              (((F.drop (13 - rowBreak row0)).drop (13 - rowBreak row1)).take
                (13 - rowBreak row2)) ++
            ((List.range' (rowBreak row3) (13 - rowBreak row3)).map (fun k => ((3 : Nat), k))).zip
              (((F.drop (13 - rowBreak row0)).drop (13 - rowBreak row1)).drop
                (13 - rowBreak row2)))) := by
    rw [hpos]
    conv =>
      lhs
      rw [← hsplit1]
    rw [List.zip_append (by rw [hP0len, hlenC0])]
    conv =>
      lhs
      rw [← hsplit2]
    rw [List.zip_append (by rw [hP1len, hlenC1])]
    conv =>
      lhs
      rw [← hsplit3]
    rw [List.zip_append (by rw [hP2len, hlenC2])]
  rw [reshuffleBoard_def, hcol, hzip]
  rw [assignAll_append, assignAll_append, assignAll_append]
  have htk0 := take_of_prefix_append row0 (rowBreak row0) (by omega)
    (List.replicate (13 - rowBreak row0) none)
  have htk1 := take_of_prefix_append row1 (rowBreak row1) (by omega)
    (List.replicate (13 - rowBreak row1) none)
  have htk2 := take_of_prefix_append row2 (rowBreak row2) (by omega)
    (List.replicate (13 - rowBreak row2) none)
  have htk3 := take_of_prefix_append row3 (rowBreak row3) (by omega)
    (List.replicate (13 - rowBreak row3) none)
  have hn0len : (row0.take (rowBreak row0) ++
      List.replicate (13 - rowBreak row0) none).length =
      rowBreak row0 + (13 - rowBreak row0) := by
    rw [List.length_append, List.length_take, List.length_replicate]
    omega
  have hn1len : (row1.take (rowBreak row1) ++
      List.replicate (13 - rowBreak row1) none).length =
      rowBreak row1 + (13 - rowBreak row1) := by
    rw [List.length_append, List.length_take, List.length_replicate]
    omega
  have hn2len : (row2.take (rowBreak row2) ++
      List.replicate (13 - rowBreak row2) none).length =
      rowBreak row2 + (13 - rowBreak row2) := by
    rw [List.length_append, List.length_take, List.length_replicate]
    omega
  have hn3len : (row3.take (rowBreak row3) ++
      List.replicate (13 - rowBreak row3) none).length =
      rowBreak row3 + (13 - rowBreak row3) := by
    rw [List.length_append, List.length_take, List.length_replicate]
    omega
  rw [assignRow_chunk2 (F.take (13 - rowBreak row0)) _ 0 (rowBreak row0)
    (13 - rowBreak row0)
    (row0.take (rowBreak row0) ++ List.replicate (13 - rowBreak row0) none)
    rfl hlenC0 (by rw [hn0len])]
  simp only [List.set_cons_zero, htk0]
  rw [assignRow_chunk2 ((F.drop (13 - rowBreak row0)).take (13 - rowBreak row1)) _ 1
    (rowBreak row1) (13 - rowBreak row1)
    (row1.take (rowBreak row1) ++ List.replicate (13 - rowBreak row1) none)
    rfl hlenC1 (by rw [hn1len])]
  simp only [List.set_cons_succ, List.set_cons_zero, htk1]
  rw [assignRow_chunk2 (((F.drop (13 - rowBreak row0)).drop (13 - rowBreak row1)).take
      (13 - rowBreak row2)) _ 2 (rowBreak row2) (13 - rowBreak row2)
    (row2.take (rowBreak row2) ++ List.replicate (13 - rowBreak row2) none)
    rfl hlenC2 (by rw [hn2len])]
  simp only [List.set_cons_succ, List.set_cons_zero, htk2]
  rw [assignRow_chunk2 (((F.drop (13 - rowBreak row0)).drop (13 - rowBreak row1)).drop
      (13 - rowBreak row2)) _ 3 (rowBreak row3) (13 - rowBreak row3)
    (row3.take (rowBreak row3) ++ List.replicate (13 - rowBreak row3) none)
    rfl hlenC3 (by rw [hn3len])]
  simp only [List.set_cons_succ, List.set_cons_zero, htk3]

/-! # Conservation: a reshuffle permutes the cells of the board -/

theorem option_decomp (l : List Cell) :
    l.Perm ((l.filterMap id).map some ++
      List.replicate (l.length - (l.filterMap id).length) none) := by
  induction l with
  | nil => simp
  | cons cell rest ih =>
    cases cell with
    | some a =>
      have hle := List.length_filterMap_le id rest
      simp only [filterMap_id_cons, Option.toList, List.singleton_append, List.map_cons,
        List.length_cons, List.cons_append, List.nil_append]
      have harith : rest.length + 1 - ((rest.filterMap id).length + 1) =
          rest.length - (rest.filterMap id).length := by omega
      rw [harith]
      exact ih.cons (some a)
    | none =>
      have hle := List.length_filterMap_le id rest
      simp only [filterMap_id_cons, Option.toList, List.nil_append, List.length_cons]
      have harith : rest.length + 1 - (rest.filterMap id).length =
          (rest.length - (rest.filterMap id).length) + 1 := by omega
      rw [harith, List.replicate_succ]
      have step1 : (none :: rest).Perm
          (none :: ((rest.filterMap id).map some ++
            List.replicate (rest.length - (rest.filterMap id).length) none)) :=
        ih.cons none
      have step2 : (none :: ((rest.filterMap id).map some ++
          List.replicate (rest.length - (rest.filterMap id).length) none)).Perm
          ((rest.filterMap id).map some ++
            none :: List.replicate (rest.length - (rest.filterMap id).length) none) :=
        List.perm_middle.symm
      exact step1.trans step2

theorem grid_four (g : Grid) (h : g.length = 4) :
    ∃ row0 row1 row2 row3, g = [row0, row1, row2, row3] := by
  match g, h with
  | [a, b, c, d], _ => exact ⟨a, b, c, d, rfl⟩

theorem reshuffle_flatten_perm (r1 r2 : Nat → Nat) (g : Grid) (hv : ValidGrid g) :
    ((reshuffleBoard r1 r2 g).flatten).Perm (g.flatten) := by
  obtain ⟨row0, row1, row2, row3, rfl⟩ := grid_four g hv.1
  have h0 : row0.length = 13 := hv.2 row0 (by simp)
  have h1 : row1.length = 13 := hv.2 row1 (by simp)
  have h2 : row2.length = 13 := hv.2 row2 (by simp)
  have h3 : row3.length = 13 := hv.2 row3 (by simp)
  have hb0 : rowBreak row0 ≤ 13 := by have := rowBreak_le row0; omega
  have hb1 : rowBreak row1 ≤ 13 := by have := rowBreak_le row1; omega
  have hb2 : rowBreak row2 ≤ 13 := by have := rowBreak_le row2; omega
  have hb3 : rowBreak row3 ≤ 13 := by have := rowBreak_le row3; omega
  have hcol := collect_four row0 row1 row2 row3
  rw [h0, h1, h2, h3] at hcol
  have hcards : cardsToShuffle [row0, row1, row2, row3] =
      (row0.drop (rowBreak row0)).filterMap id ++
        ((row1.drop (rowBreak row1)).filterMap id ++
          ((row2.drop (rowBreak row2)).filterMap id ++
            (row3.drop (rowBreak row3)).filterMap id)) := by
    rw [cardsToShuffle, hcol]
  have hposlen : (positionsToFill [row0, row1, row2, row3]).length =
      (13 - rowBreak row0) + ((13 - rowBreak row1) +
        ((13 - rowBreak row2) + (13 - rowBreak row3))) := by
    rw [positionsToFill, hcol]
    simp [List.length_range']
  have hcardlen0 : ((row0.drop (rowBreak row0)).filterMap id).length ≤ 13 - rowBreak row0 := by
    have := List.length_filterMap_le id (row0.drop (rowBreak row0))
    rw [List.length_drop, h0] at this
    exact this
  have hcardlen1 : ((row1.drop (rowBreak row1)).filterMap id).length ≤ 13 - rowBreak row1 := by
    have := List.length_filterMap_le id (row1.drop (rowBreak row1))
    rw [List.length_drop, h1] at this
    exact this
  have hcardlen2 : ((row2.drop (rowBreak row2)).filterMap id).length ≤ 13 - rowBreak row2 := by
    have := List.length_filterMap_le id (row2.drop (rowBreak row2))
    rw [List.length_drop, h2] at this
    exact this
  have hcardlen3 : ((row3.drop (rowBreak row3)).filterMap id).length ≤ 13 - rowBreak row3 := by
    have := List.length_filterMap_le id (row3.drop (rowBreak row3))
    rw [List.length_drop, h3] at this
    exact this
  rw [reshuffleBoard_four r1 r2 row0 row1 row2 row3 h0 h1 h2 h3]
  rw [← Multiset.coe_eq_coe]
  have hsplit3 : ((fillStream r1 r2 [row0, row1, row2, row3]).drop
        (13 - rowBreak row0)).drop (13 - rowBreak row1) =
      (((fillStream r1 r2 [row0, row1, row2, row3]).drop (13 - rowBreak row0)).drop
          (13 - rowBreak row1)).take (13 - rowBreak row2) ++
        (((fillStream r1 r2 [row0, row1, row2, row3]).drop (13 - rowBreak row0)).drop
          (13 - rowBreak row1)).drop (13 - rowBreak row2) :=
    (List.take_append_drop _ _).symm
  have hsplit2 : (fillStream r1 r2 [row0, row1, row2, row3]).drop (13 - rowBreak row0) =
      ((fillStream r1 r2 [row0, row1, row2, row3]).drop (13 - rowBreak row0)).take
          (13 - rowBreak row1) ++
        ((fillStream r1 r2 [row0, row1, row2, row3]).drop (13 - rowBreak row0)).drop
          (13 - rowBreak row1) :=
    (List.take_append_drop _ _).symm
  have hsplit1 : fillStream r1 r2 [row0, row1, row2, row3] =
      (fillStream r1 r2 [row0, row1, row2, row3]).take (13 - rowBreak row0) ++
        (fillStream r1 r2 [row0, row1, row2, row3]).drop (13 - rowBreak row0) :=
    (List.take_append_drop _ _).symm
  have hFcoe : (↑((fillStream r1 r2 [row0, row1, row2, row3]).take (13 - rowBreak row0)) +
        (↑(((fillStream r1 r2 [row0, row1, row2, row3]).drop (13 - rowBreak row0)).take
            (13 - rowBreak row1)) +
          (↑((((fillStream r1 r2 [row0, row1, row2, row3]).drop (13 - rowBreak row0)).drop
              (13 - rowBreak row1)).take (13 - rowBreak row2)) +
            ↑((((fillStream r1 r2 [row0, row1, row2, row3]).drop (13 - rowBreak row0)).drop
              (13 - rowBreak row1)).drop (13 - rowBreak row2)))) : Multiset Cell) =
      ↑(fillStream r1 r2 [row0, row1, row2, row3]) := by
    rw [Multiset.coe_add, Multiset.coe_add, Multiset.coe_add, ← hsplit3, ← hsplit2, ← hsplit1]
  have hFfill : (↑(fillStream r1 r2 [row0, row1, row2, row3]) : Multiset Cell) =
      ↑(fillItemsOf r1 [row0, row1, row2, row3]) :=
    Multiset.coe_eq_coe.mpr (shuffleList_perm r2 _)
  have hfill : (↑(fillItemsOf r1 [row0, row1, row2, row3]) : Multiset Cell) =
      ↑((cardsToShuffle [row0, row1, row2, row3]).map some) +
        ↑(List.replicate ((positionsToFill [row0, row1, row2, row3]).length -
            (cardsToShuffle [row0, row1, row2, row3]).length) (none : Cell)) := by
    rw [fillItemsOf, ← Multiset.coe_add]
    exact Multiset.coe_eq_coe.mpr
      (((shuffleList_perm r1 _).map some).append (List.Perm.refl _))
  have hKsplit : (positionsToFill [row0, row1, row2, row3]).length -
      (cardsToShuffle [row0, row1, row2, row3]).length =
      ((13 - rowBreak row0) - ((row0.drop (rowBreak row0)).filterMap id).length) +
        (((13 - rowBreak row1) - ((row1.drop (rowBreak row1)).filterMap id).length) +
          (((13 - rowBreak row2) - ((row2.drop (rowBreak row2)).filterMap id).length) +
            ((13 - rowBreak row3) - ((row3.drop (rowBreak row3)).filterMap id).length))) := by
    rw [hposlen, hcards]
    simp only [List.length_append]
    omega
  have hD0 : (↑(row0.drop (rowBreak row0)) : Multiset Cell) =
      ↑(((row0.drop (rowBreak row0)).filterMap id).map some) +
        ↑(List.replicate ((13 - rowBreak row0) -
          ((row0.drop (rowBreak row0)).filterMap id).length) (none : Cell)) := by
    rw [Multiset.coe_add]
    refine Multiset.coe_eq_coe.mpr ?_
    have := option_decomp (row0.drop (rowBreak row0))
    rw [List.length_drop, h0] at this
    exact this
  have hD1 : (↑(row1.drop (rowBreak row1)) : Multiset Cell) =
      ↑(((row1.drop (rowBreak row1)).filterMap id).map some) +
        ↑(List.replicate ((13 - rowBreak row1) -
          ((row1.drop (rowBreak row1)).filterMap id).length) (none : Cell)) := by
    rw [Multiset.coe_add]
    refine Multiset.coe_eq_coe.mpr ?_
    have := option_decomp (row1.drop (rowBreak row1))
    rw [List.length_drop, h1] at this
    exact this
  have hD2 : (↑(row2.drop (rowBreak row2)) : Multiset Cell) =
      ↑(((row2.drop (rowBreak row2)).filterMap id).map some) +
        ↑(List.replicate ((13 - rowBreak row2) -
          ((row2.drop (rowBreak row2)).filterMap id).length) (none : Cell)) := by
    rw [Multiset.coe_add]
    refine Multiset.coe_eq_coe.mpr ?_
    have := option_decomp (row2.drop (rowBreak row2))
    rw [List.length_drop, h2] at this
    exact this
  have hD3 : (↑(row3.drop (rowBreak row3)) : Multiset Cell) =
      ↑(((row3.drop (rowBreak row3)).filterMap id).map some) +
        ↑(List.replicate ((13 - rowBreak row3) -
          ((row3.drop (rowBreak row3)).filterMap id).length) (none : Cell)) := by
    rw [Multiset.coe_add]
    refine Multiset.coe_eq_coe.mpr ?_
    have := option_decomp (row3.drop (rowBreak row3))
    rw [List.length_drop, h3] at this
    exact this
  have hrow0 : (↑row0 : Multiset Cell) =
      ↑(row0.take (rowBreak row0)) + ↑(row0.drop (rowBreak row0)) := by
    rw [Multiset.coe_add, List.take_append_drop]
  have hrow1 : (↑row1 : Multiset Cell) =
      ↑(row1.take (rowBreak row1)) + ↑(row1.drop (rowBreak row1)) := by
    rw [Multiset.coe_add, List.take_append_drop]
  have hrow2 : (↑row2 : Multiset Cell) =
      ↑(row2.take (rowBreak row2)) + ↑(row2.drop (rowBreak row2)) := by
    rw [Multiset.coe_add, List.take_append_drop]
  have hrow3 : (↑row3 : Multiset Cell) =
      ↑(row3.take (rowBreak row3)) + ↑(row3.drop (rowBreak row3)) := by
    rw [Multiset.coe_add, List.take_append_drop]
  have key : (↑((fillStream r1 r2 [row0, row1, row2, row3]).take (13 - rowBreak row0)) +
        (↑(((fillStream r1 r2 [row0, row1, row2, row3]).drop (13 - rowBreak row0)).take
            (13 - rowBreak row1)) +
          (↑((((fillStream r1 r2 [row0, row1, row2, row3]).drop (13 - rowBreak row0)).drop
              (13 - rowBreak row1)).take (13 - rowBreak row2)) +
            ↑((((fillStream r1 r2 [row0, row1, row2, row3]).drop (13 - rowBreak row0)).drop
              (13 - rowBreak row1)).drop (13 - rowBreak row2)))) : Multiset Cell) =
      ↑(row0.drop (rowBreak row0)) + (↑(row1.drop (rowBreak row1)) +
        (↑(row2.drop (rowBreak row2)) + ↑(row3.drop (rowBreak row3)))) := by
    rw [hFcoe, hFfill, hfill, hKsplit, hcards]
    simp only [List.map_append, List.replicate_add, ← Multiset.coe_add]
    rw [hD0, hD1, hD2, hD3]
    abel
  simp only [List.flatten_cons, List.flatten_nil, List.append_nil, ← Multiset.coe_add]
  rw [hrow0, hrow1, hrow2, hrow3]
  calc (↑(row0.take (rowBreak row0)) : Multiset Cell) +
        ↑((fillStream r1 r2 [row0, row1, row2, row3]).take (13 - rowBreak row0)) +
        (↑(row1.take (rowBreak row1)) +
          ↑(((fillStream r1 r2 [row0, row1, row2, row3]).drop (13 - rowBreak row0)).take
            (13 - rowBreak row1)) +
          (↑(row2.take (rowBreak row2)) +
            ↑((((fillStream r1 r2 [row0, row1, row2, row3]).drop (13 - rowBreak row0)).drop
              (13 - rowBreak row1)).take (13 - rowBreak row2)) +
            (↑(row3.take (rowBreak row3)) +
              ↑((((fillStream r1 r2 [row0, row1, row2, row3]).drop (13 - rowBreak row0)).drop
                (13 - rowBreak row1)).drop (13 - rowBreak row2))))) =
      ((↑(row0.take (rowBreak row0)) : Multiset Cell) + (↑(row1.take (rowBreak row1)) +
          (↑(row2.take (rowBreak row2)) + ↑(row3.take (rowBreak row3))))) +
        (↑((fillStream r1 r2 [row0, row1, row2, row3]).take (13 - rowBreak row0)) +
          (↑(((fillStream r1 r2 [row0, row1, row2, row3]).drop (13 - rowBreak row0)).take
              (13 - rowBreak row1)) +
            (↑((((fillStream r1 r2 [row0, row1, row2, row3]).drop (13 - rowBreak row0)).drop
                (13 - rowBreak row1)).take (13 - rowBreak row2)) +
              ↑((((fillStream r1 r2 [row0, row1, row2, row3]).drop (13 - rowBreak row0)).drop
                (13 - rowBreak row1)).drop (13 - rowBreak row2))))) := by
        abel
    _ = ((↑(row0.take (rowBreak row0)) : Multiset Cell) + (↑(row1.take (rowBreak row1)) +
          (↑(row2.take (rowBreak row2)) + ↑(row3.take (rowBreak row3))))) +
        (↑(row0.drop (rowBreak row0)) + (↑(row1.drop (rowBreak row1)) +
          (↑(row2.drop (rowBreak row2)) + ↑(row3.drop (rowBreak row3))))) := by
        rw [key]
    _ = (↑(row0.take (rowBreak row0)) : Multiset Cell) + ↑(row0.drop (rowBreak row0)) +
        (↑(row1.take (rowBreak row1)) + ↑(row1.drop (rowBreak row1)) +
          (↑(row2.take (rowBreak row2)) + ↑(row2.drop (rowBreak row2)) +
            (↑(row3.take (rowBreak row3)) + ↑(row3.drop (rowBreak row3))))) := by
        abel

/-! # With globally unique ids, an id is locked iff its cell sits before the
break column of its row -/

theorem getLockedCards_four (row0 row1 row2 row3 : List Cell) :
    getLockedCards [row0, row1, row2, row3] =
      rowLockedIds row0 ++ (rowLockedIds row1 ++ (rowLockedIds row2 ++ rowLockedIds row3)) := by
  simp [getLockedCards]

theorem gridIds_four (row0 row1 row2 row3 : List Cell) :
    gridIds [row0, row1, row2, row3] =
      rowIds row0 ++ (rowIds row1 ++ (rowIds row2 ++ rowIds row3)) := by
  simp [gridIds, gridCells, rowIds, List.filterMap_append]

theorem mem_rowIds_of_cell {row : List Cell} {c : Nat} {card : CardData}
    (hc : row.getD c none = some card) : card.id ∈ rowIds row := by
  have hq := getD_some_getElem hc
  have hmem : (some card) ∈ row := by
    rw [List.mem_iff_getElem?]
    exact ⟨c, hq⟩
  exact List.mem_map.mpr ⟨card, List.mem_filterMap.mpr ⟨some card, hmem, rfl⟩, rfl⟩

theorem rowLockedIds_subset (row : List Cell) :
    ∀ x ∈ rowLockedIds row, x ∈ rowIds row := by
  rw [rowLockedIds_eq]
  intro x hx
  have hsub : List.Sublist (((row.take (rowBreak row)).filterMap id).map (fun c => c.id))
      ((row.filterMap id).map (fun c => c.id)) :=
    ((List.take_sublist _ _).filterMap id).map _
  exact hsub.mem hx

theorem row_free_not_locked (row : List Cell) (hnd : (rowIds row).Nodup)
    (c : Nat) (card : CardData) (hc : row.getD c none = some card)
    (hbc : rowBreak row ≤ c) : card.id ∉ rowLockedIds row := by
  rw [rowLockedIds_eq]
  intro hmem
  have hdrop : (some card) ∈ row.drop (rowBreak row) := by
    rw [List.mem_iff_getElem?]
    refine ⟨c - rowBreak row, ?_⟩
    rw [List.getElem?_drop]
    have harith : rowBreak row + (c - rowBreak row) = c := by omega
    rw [harith]
    exact getD_some_getElem hc
  have hmem2 : card.id ∈ ((row.drop (rowBreak row)).filterMap id).map (fun x => x.id) :=
    List.mem_map.mpr ⟨card, List.mem_filterMap.mpr ⟨some card, hdrop, rfl⟩, rfl⟩
  have hsplit : rowIds row =
      ((row.take (rowBreak row)).filterMap id).map (fun x => x.id) ++
        ((row.drop (rowBreak row)).filterMap id).map (fun x => x.id) := by
    rw [rowIds]
    conv_lhs => rw [← List.take_append_drop (rowBreak row) row]
    rw [List.filterMap_append, List.map_append]
  rw [hsplit] at hnd
  exact List.disjoint_of_nodup_append hnd hmem hmem2

theorem free_not_locked_four (row0 row1 row2 row3 : List Cell)
    (hnd : (gridIds [row0, row1, row2, row3]).Nodup) :
    ∀ r c card, r < 4 → ([row0, row1, row2, row3].getD r []).getD c none = some card →
      rowBreak ([row0, row1, row2, row3].getD r []) ≤ c →
      card.id ∉ getLockedCards [row0, row1, row2, row3] := by
  rw [gridIds_four] at hnd
  obtain ⟨hnd0, hndrest, hdis0⟩ := List.nodup_append.mp hnd
  obtain ⟨hnd1, hndrest2, hdis1⟩ := List.nodup_append.mp hndrest
  obtain ⟨hnd2, hnd3, hdis2⟩ := List.nodup_append.mp hndrest2
  intro r c card hr hcell hbreak hmem
  rw [getLockedCards_four] at hmem
  interval_cases r
  · simp only [List.getD_cons_zero] at hcell hbreak
    have hin : card.id ∈ rowIds row0 := mem_rowIds_of_cell hcell
    rcases List.mem_append.mp hmem with hL | hrest
    · exact row_free_not_locked row0 hnd0 c card hcell hbreak hL
    · have hin123 : card.id ∈ rowIds row1 ++ (rowIds row2 ++ rowIds row3) := by
        rcases List.mem_append.mp hrest with hL1 | hrest2
        · exact List.mem_append.mpr (Or.inl (rowLockedIds_subset row1 _ hL1))
        · rcases List.mem_append.mp hrest2 with hL2 | hL3
          · exact List.mem_append.mpr (Or.inr
              (List.mem_append.mpr (Or.inl (rowLockedIds_subset row2 _ hL2))))
          · exact List.mem_append.mpr (Or.inr
              (List.mem_append.mpr (Or.inr (rowLockedIds_subset row3 _ hL3))))
      exact hdis0 hin hin123
  · simp only [List.getD_cons_succ, List.getD_cons_zero] at hcell hbreak
    have hin : card.id ∈ rowIds row1 := mem_rowIds_of_cell hcell
    rcases List.mem_append.mp hmem with hL0 | hrest
    · exact hdis0 (rowLockedIds_subset row0 _ hL0)
        (List.mem_append.mpr (Or.inl hin))
    · rcases List.mem_append.mp hrest with hL1 | hrest2
      · exact row_free_not_locked row1 hnd1 c card hcell hbreak hL1
      · have hin23 : card.id ∈ rowIds row2 ++ rowIds row3 := by
          rcases List.mem_append.mp hrest2 with hL2 | hL3
          · exact List.mem_append.mpr (Or.inl (rowLockedIds_subset row2 _ hL2))
          · exact List.mem_append.mpr (Or.inr (rowLockedIds_subset row3 _ hL3))
        exact hdis1 hin hin23
  · simp only [List.getD_cons_succ, List.getD_cons_zero] at hcell hbreak
    have hin : card.id ∈ rowIds row2 := mem_rowIds_of_cell hcell
    rcases List.mem_append.mp hmem with hL0 | hrest
    · exact hdis0 (rowLockedIds_subset row0 _ hL0)
        (List.mem_append.mpr (Or.inr (List.mem_append.mpr (Or.inl hin))))
    · rcases List.mem_append.mp hrest with hL1 | hrest2
      · exact hdis1 (rowLockedIds_subset row1 _ hL1)
          (List.mem_append.mpr (Or.inl hin))
      · rcases List.mem_append.mp hrest2 with hL2 | hL3
        · exact row_free_not_locked row2 hnd2 c card hcell hbreak hL2
        · exact hdis2 hin (rowLockedIds_subset row3 _ hL3)
  · simp only [List.getD_cons_succ, List.getD_cons_zero] at hcell hbreak
    have hin : card.id ∈ rowIds row3 := mem_rowIds_of_cell hcell
    rcases List.mem_append.mp hmem with hL0 | hrest
    · exact hdis0 (rowLockedIds_subset row0 _ hL0)
        (List.mem_append.mpr (Or.inr (List.mem_append.mpr (Or.inr hin))))
    · rcases List.mem_append.mp hrest with hL1 | hrest2
      · exact hdis1 (rowLockedIds_subset row1 _ hL1)
          (List.mem_append.mpr (Or.inr hin))
      · rcases List.mem_append.mp hrest2 with hL2 | hL3
        · exact hdis2 (rowLockedIds_subset row2 _ hL2) hin
        · exact row_free_not_locked row3 hnd3 c card hcell hbreak hL3

theorem locked_mem_four (row0 row1 row2 row3 : List Cell) :
    ∀ r c card, r < 4 → ([row0, row1, row2, row3].getD r []).getD c none = some card →
      c < rowBreak ([row0, row1, row2, row3].getD r []) →
      card.id ∈ getLockedCards [row0, row1, row2, row3] := by
  intro r c card hr hcell hc
  rw [getLockedCards_four]
  interval_cases r
  · simp only [List.getD_cons_zero] at hcell hc
    obtain ⟨card2, hcard2, hmemL⟩ := break_cell_some row0 c hc
    rw [hcell] at hcard2
    obtain rfl : card2 = card := by injection hcard2 with h; exact h.symm
    exact List.mem_append.mpr (Or.inl hmemL)
  · simp only [List.getD_cons_succ, List.getD_cons_zero] at hcell hc
    obtain ⟨card2, hcard2, hmemL⟩ := break_cell_some row1 c hc
    rw [hcell] at hcard2
    obtain rfl : card2 = card := by injection hcard2 with h; exact h.symm
    exact List.mem_append.mpr (Or.inr (List.mem_append.mpr (Or.inl hmemL)))
  · simp only [List.getD_cons_succ, List.getD_cons_zero] at hcell hc
    obtain ⟨card2, hcard2, hmemL⟩ := break_cell_some row2 c hc
    rw [hcell] at hcard2
    obtain rfl : card2 = card := by injection hcard2 with h; exact h.symm
    exact List.mem_append.mpr (Or.inr (List.mem_append.mpr (Or.inr
      (List.mem_append.mpr (Or.inl hmemL)))))
  · simp only [List.getD_cons_succ, List.getD_cons_zero] at hcell hc
    obtain ⟨card2, hcard2, hmemL⟩ := break_cell_some row3 c hc
    rw [hcell] at hcard2
    obtain rfl : card2 = card := by injection hcard2 with h; exact h.symm
    exact List.mem_append.mpr (Or.inr (List.mem_append.mpr (Or.inr
      (List.mem_append.mpr (Or.inr hmemL)))))

/-! # Claim theorems -/

/-- C3: for every card, row and grid, `canPlaceCard` at column 0 returns true
iff the card's rank is TWO, independent of the grid; and for columns 1..12 on
a structurally valid grid it returns true iff the left neighbor
`grid[row][col-1]` is a non-gap, non-King card of the card's suit whose rank
value is exactly one less than the card's rank value. -/
theorem canPlaceCard_spec :
    (∀ (card : CardData) (r : Nat) (g : Grid),
      canPlaceCard card r 0 g = true ↔ card.rank = Rank.TWO) ∧
    (∀ (card : CardData) (r c : Nat) (g : Grid), ValidGrid g → r < 4 → 1 ≤ c → c ≤ 12 →
      (canPlaceCard card r c g = true ↔
        ∃ n, cellAt g r (c - 1) = some n ∧ n.rank ≠ Rank.KING ∧ n.suit = card.suit ∧
          getRankValue card.rank = getRankValue n.rank + 1)) := by
  constructor
  · intro card r g
    simp [canPlaceCard]
  · intro card r c g hv hr hc1 hc2
    have hc0 : c ≠ 0 := by omega
    rw [canPlaceCard, if_neg hc0]
    cases hcell : cellAt g r (c - 1) with
    | none => simp
    | some n =>
      by_cases hk : n.rank = Rank.KING
      · simp [hk]
      · by_cases hs : card.suit = n.suit
        · simp [hk, hs]
        · have hs2 : ¬ (n.suit = card.suit) := fun h => hs h.symm
          simp [hk, hs, hs2]

/-- Witness for C3: on a concrete valid board, placing the ten of clubs right
of the nine of clubs is judged exactly by the neighbor condition. -/
theorem canPlaceCard_spec_witness :
    ValidGrid mixedGrid ∧ (0 : Nat) < 4 ∧ (1 : Nat) ≤ 3 ∧ (3 : Nat) ≤ 12 ∧
    (canPlaceCard (tCard .CLUBS .TEN "w0c") 0 3 mixedGrid = true ↔
      ∃ n, cellAt mixedGrid 0 (3 - 1) = some n ∧ n.rank ≠ Rank.KING ∧
        n.suit = (tCard .CLUBS .TEN "w0c").suit ∧
        getRankValue (tCard .CLUBS .TEN "w0c").rank = getRankValue n.rank + 1) :=
  ⟨by decide, by decide, by decide, by decide,
    canPlaceCard_spec.2 (tCard .CLUBS .TEN "w0c") 0 3 mixedGrid (by decide) (by decide)
      (by decide) (by decide)⟩

theorem isRowComplete_iff (row : List Cell) : isRowComplete row = true ↔ RowOk row := by
  cases h12 : row.getD 12 none with
  | some x => rw [isRowComplete, RowOk, h12]; simp
  | none =>
    cases h0 : row.getD 0 none with
    | none => rw [isRowComplete, RowOk, h12, h0]; simp
    | some c0 =>
      by_cases ht : c0.rank = Rank.TWO
      · rw [isRowComplete, RowOk, h12, h0]
        simp only [if_neg (not_not_intro ht), List.all_eq_true]
        constructor
        · intro hall
          refine ⟨trivial, c0, rfl, ht, ?_⟩
          intro i hi
          have hcond := hall i (List.mem_range.mpr hi)
          cases hcelli : row.getD i none with
          | none => rw [hcelli] at hcond; simp at hcond
          | some cell =>
            rw [hcelli] at hcond
            simp only [Bool.and_eq_true, decide_eq_true_eq] at hcond
            exact ⟨cell, rfl, hcond.1, hcond.2⟩
        · rintro ⟨-, c0', hc0', -, hcells⟩
          have hcc : c0' = c0 := by
            injection hc0' with h
            exact h.symm
          subst hcc
          intro i hi
          obtain ⟨cell, hcelli, hsuit, hrank⟩ := hcells i (List.mem_range.mp hi)
          rw [hcelli]
          simp [hsuit, hrank]
      · rw [isRowComplete, RowOk, h12, h0]
        simp only [if_pos ht, Bool.false_eq_true, false_iff, not_and]
        intro h12eq
        rintro ⟨c0', hc0', ht', -⟩
        injection hc0' with h
        exact ht (h ▸ ht')

/-- C5: on a structurally valid grid, `checkWinCondition` returns true iff
every one of the four rows has a gap at column 12, a TWO at column 0, and at
each column i in 0..11 a card of the row's column-0 suit with rank value
i + 2; in particular a row with a gap before column 12, or a card at column
12, makes it false. -/
theorem checkWinCondition_iff (g : Grid) (hv : ValidGrid g) :
    checkWinCondition g = true ↔ ∀ r, r < 4 → RowOk (g.getD r []) := by
  obtain ⟨row0, row1, row2, row3, rfl⟩ := grid_four g hv.1
  rw [checkWinCondition, List.all_eq_true]
  constructor
  · intro hall r hr
    interval_cases r
    · exact (isRowComplete_iff row0).mp (hall row0 (by simp))
    · exact (isRowComplete_iff row1).mp (hall row1 (by simp))
    · exact (isRowComplete_iff row2).mp (hall row2 (by simp))
    · exact (isRowComplete_iff row3).mp (hall row3 (by simp))
  · intro hok row hrow
    have hcases : row = row0 ∨ row = row1 ∨ row = row2 ∨ row = row3 := by
      simpa using hrow
    rcases hcases with rfl | rfl | rfl | rfl
    · exact (isRowComplete_iff row).mpr (hok 0 (by omega))
    · exact (isRowComplete_iff row).mpr (hok 1 (by omega))
    · exact (isRowComplete_iff row).mpr (hok 2 (by omega))
    · exact (isRowComplete_iff row).mpr (hok 3 (by omega))

/-- Witness for C5: the finished board is valid and wins, and all its rows
pass the pointwise check. -/
theorem checkWinCondition_iff_witness :
    ValidGrid winGrid ∧ checkWinCondition winGrid = true ∧
      ∀ r, r < 4 → RowOk (winGrid.getD r []) :=
  ⟨by decide, by decide,
    (checkWinCondition_iff winGrid (by decide)).mp (by decide)⟩

/-- C7: a row whose column-0 cell is a gap or holds a non-TWO card is treated
as entirely free by `reshuffleBoard`: all 13 of its positions are collected
for redistribution and every one of its cards enters the shuffle pool. -/
theorem reshuffle_nonTwoRow_allFree (g : Grid) (hv : ValidGrid g) (r : Nat) (hr : r < 4)
    (hrow : ∀ card, cellAt g r 0 = some card → card.rank ≠ Rank.TWO) :
    (∀ c, c < 13 → (r, c) ∈ positionsToFill g) ∧
    (∀ card, (some card) ∈ g.getD r [] → card ∈ cardsToShuffle g) := by
  obtain ⟨row0, row1, row2, row3, rfl⟩ := grid_four g hv.1
  have h0 : row0.length = 13 := hv.2 row0 (by simp)
  have h1 : row1.length = 13 := hv.2 row1 (by simp)
  have h2 : row2.length = 13 := hv.2 row2 (by simp)
  have h3 : row3.length = 13 := hv.2 row3 (by simp)
  have hcol := collect_four row0 row1 row2 row3
  rw [h0, h1, h2, h3] at hcol
  have hbreak : rowBreak ([row0, row1, row2, row3].getD r []) = 0 := by
    cases hcell : ([row0, row1, row2, row3].getD r []).getD 0 none with
    | none => rw [rowBreak, hcell]
    | some c0 =>
      have hne : c0.rank ≠ Rank.TWO := hrow c0 hcell
      rw [rowBreak, hcell]
      simp only [if_neg hne]
  constructor
  · intro c hc
    rw [positionsToFill, hcol]
    have hcr : c ∈ List.range' 0 13 := List.mem_range'_1.mpr (by omega)
    interval_cases r
    · rw [List.getD_cons_zero] at hbreak
      rw [hbreak]
      exact List.mem_append.mpr (Or.inl (List.mem_map.mpr ⟨c, by simpa using hcr, rfl⟩))
    · simp only [List.getD_cons_succ, List.getD_cons_zero] at hbreak
      rw [hbreak]
      exact List.mem_append.mpr (Or.inr (List.mem_append.mpr (Or.inl
        (List.mem_map.mpr ⟨c, by simpa using hcr, rfl⟩))))
    · simp only [List.getD_cons_succ, List.getD_cons_zero] at hbreak
      rw [hbreak]
      exact List.mem_append.mpr (Or.inr (List.mem_append.mpr (Or.inr
        (List.mem_append.mpr (Or.inl (List.mem_map.mpr ⟨c, by simpa using hcr, rfl⟩))))))
    · simp only [List.getD_cons_succ, List.getD_cons_zero] at hbreak
      rw [hbreak]
      exact List.mem_append.mpr (Or.inr (List.mem_append.mpr (Or.inr
        (List.mem_append.mpr (Or.inr (List.mem_map.mpr ⟨c, by simpa using hcr, rfl⟩))))))
  · intro card hcard
    rw [cardsToShuffle, hcol]
    interval_cases r
    · rw [List.getD_cons_zero] at hbreak hcard
      have : card ∈ (row0.drop 0).filterMap id := by
        rw [List.drop_zero]
        exact List.mem_filterMap.mpr ⟨some card, hcard, rfl⟩
      rw [hbreak]
      exact List.mem_append.mpr (Or.inl this)
    · simp only [List.getD_cons_succ, List.getD_cons_zero] at hbreak hcard
      rw [hbreak]
      have : card ∈ (row1.drop 0).filterMap id := by
        rw [List.drop_zero]
        exact List.mem_filterMap.mpr ⟨some card, hcard, rfl⟩
      exact List.mem_append.mpr (Or.inr (List.mem_append.mpr (Or.inl this)))
    · simp only [List.getD_cons_succ, List.getD_cons_zero] at hbreak hcard
      rw [hbreak]
      have : card ∈ (row2.drop 0).filterMap id := by
        rw [List.drop_zero]
        exact List.mem_filterMap.mpr ⟨some card, hcard, rfl⟩
      exact List.mem_append.mpr (Or.inr (List.mem_append.mpr (Or.inr
        (List.mem_append.mpr (Or.inl this)))))
    · simp only [List.getD_cons_succ, List.getD_cons_zero] at hbreak hcard
      rw [hbreak]
      have : card ∈ (row3.drop 0).filterMap id := by
        rw [List.drop_zero]
        exact List.mem_filterMap.mpr ⟨some card, hcard, rfl⟩
      exact List.mem_append.mpr (Or.inr (List.mem_append.mpr (Or.inr
        (List.mem_append.mpr (Or.inr this)))))

/-- Witness for C7: row 1 of a concrete board starts with a 5D, so all its 13
positions are free and its card is pooled. -/
theorem reshuffle_nonTwoRow_allFree_witness :
    ValidGrid [emptyRow, [some (tCard .DIAMONDS .FIVE "w5d"), none, none, none, none,
        none, none, none, none, none, none, none, none], emptyRow, emptyRow] ∧
    (∀ c, c < 13 → ((1 : Nat), c) ∈ positionsToFill [emptyRow,
        [some (tCard .DIAMONDS .FIVE "w5d"), none, none, none, none,
         none, none, none, none, none, none, none, none], emptyRow, emptyRow]) ∧
    ∀ card, (some card) ∈ ([emptyRow, [some (tCard .DIAMONDS .FIVE "w5d"), none, none,
        none, none, none, none, none, none, none, none, none, none], emptyRow,
        emptyRow].getD 1 []) →
      card ∈ cardsToShuffle [emptyRow, [some (tCard .DIAMONDS .FIVE "w5d"), none, none,
        none, none, none, none, none, none, none, none, none, none], emptyRow, emptyRow] := by
  refine ⟨by decide, ?_⟩
  have h := reshuffle_nonTwoRow_allFree [emptyRow, [some (tCard .DIAMONDS .FIVE "w5d"),
      none, none, none, none, none, none, none, none, none, none, none, none], emptyRow,
      emptyRow] (by decide) 1 (by decide) (by decide)
  exact ⟨h.1, h.2⟩

theorem getD_take {row : List Cell} {b c : Nat} (h : c < b) :
    (row.take b).getD c none = row.getD c none := by
  rw [List.getD_eq_getElem?_getD, List.getD_eq_getElem?_getD, List.getElem?_take,
    if_pos h]

theorem getD_append_left {A B : List Cell} {c : Nat} (h : c < A.length) :
    (A ++ B).getD c none = A.getD c none := by
  rw [List.getD_eq_getElem?_getD, List.getD_eq_getElem?_getD, List.getElem?_append,
    if_pos h]

theorem cellAt_oob_row {g : Grid} {r c : Nat} (h : g.length ≤ r) :
    cellAt g r c = none := by
  rw [cellAt, List.getD_eq_default _ _ h]
  rfl

/-- C1: on a well-formed 4x13 grid (the data model's globally unique ids),
`reshuffleBoard` returns a grid with the same multiset of card ids and the
same number of gaps, and every card locked per `getLockedCards` computed on
the input grid occupies exactly the same (row, col) in the result. -/
theorem reshuffle_conservation (r1 r2 : Nat → Nat) (g : Grid) (h : WellFormedGrid g) :
    (gridIds (reshuffleBoard r1 r2 g)).Perm (gridIds g) ∧
    (gridCells (reshuffleBoard r1 r2 g)).countP (fun cell => cell.isNone) =
      (gridCells g).countP (fun cell => cell.isNone) ∧
    ∀ r c card, cellAt g r c = some card → card.id ∈ getLockedCards g →
      cellAt (reshuffleBoard r1 r2 g) r c = some card := by
  have hperm := reshuffle_flatten_perm r1 r2 g h.1
  refine ⟨(hperm.filterMap id).map _, hperm.countP_eq _, ?_⟩
  intro r c card hcell hid
  obtain ⟨row0, row1, row2, row3, rfl⟩ := grid_four g h.1.1
  have h0 : row0.length = 13 := h.1.2 row0 (by simp)
  have h1 : row1.length = 13 := h.1.2 row1 (by simp)
  have h2 : row2.length = 13 := h.1.2 row2 (by simp)
  have h3 : row3.length = 13 := h.1.2 row3 (by simp)
  have hr : r < 4 := by
    by_contra h4
    rw [cellAt_oob_row (by simp; omega)] at hcell
    exact Option.noConfusion hcell
  have hcb : c < rowBreak ([row0, row1, row2, row3].getD r []) := by
    by_contra hge
    exact free_not_locked_four row0 row1 row2 row3 h.2 r c card hr hcell (by omega) hid
  have hb0 : rowBreak row0 ≤ 13 := by have := rowBreak_le row0; omega
  have hb1 : rowBreak row1 ≤ 13 := by have := rowBreak_le row1; omega
  have hb2 : rowBreak row2 ≤ 13 := by have := rowBreak_le row2; omega
  have hb3 : rowBreak row3 ≤ 13 := by have := rowBreak_le row3; omega
  rw [reshuffleBoard_four r1 r2 row0 row1 row2 row3 h0 h1 h2 h3]
  rw [cellAt] at hcell ⊢
  interval_cases r
  · rw [List.getD_cons_zero] at hcell hcb ⊢
    rw [getD_append_left (by rw [List.length_take]; omega), getD_take hcb]
    exact hcell
  · simp only [List.getD_cons_succ, List.getD_cons_zero] at hcell hcb ⊢
    rw [getD_append_left (by rw [List.length_take]; omega), getD_take hcb]
    exact hcell
  · simp only [List.getD_cons_succ, List.getD_cons_zero] at hcell hcb ⊢
    rw [getD_append_left (by rw [List.length_take]; omega), getD_take hcb]
    exact hcell
  · simp only [List.getD_cons_succ, List.getD_cons_zero] at hcell hcb ⊢
    rw [getD_append_left (by rw [List.length_take]; omega), getD_take hcb]
    exact hcell

/-- Witness for C1: a concrete well-formed board with two locked prefixes,
shuffled with concrete random oracles. -/
theorem reshuffle_conservation_witness :
    WellFormedGrid mixedGrid ∧
    ((gridIds (reshuffleBoard (fun n => 7 * n + 3) (fun n => 5 * n + 1) mixedGrid)).Perm
        (gridIds mixedGrid) ∧
      (gridCells (reshuffleBoard (fun n => 7 * n + 3) (fun n => 5 * n + 1)
          mixedGrid)).countP (fun cell => cell.isNone) =
        (gridCells mixedGrid).countP (fun cell => cell.isNone) ∧
      ∀ r c card, cellAt mixedGrid r c = some card →
        card.id ∈ getLockedCards mixedGrid →
        cellAt (reshuffleBoard (fun n => 7 * n + 3) (fun n => 5 * n + 1) mixedGrid) r c =
          some card) :=
  ⟨by decide, reshuffle_conservation (fun n => 7 * n + 3) (fun n => 5 * n + 1) mixedGrid
    (by decide)⟩

/-- C2: on a well-formed grid, the reshuffle scan's free partition agrees with
the lock detector: a position (r, c) is collected into `positionsToFill` iff
its cell holds no card whose id is in `getLockedCards`, and a card enters
`cardsToShuffle` iff it sits on such a free cell; every position from each
row's break point to the row end, gaps included, is free. -/
theorem freePartition_iff_locked (g : Grid) (h : WellFormedGrid g) :
    (∀ r c, (r, c) ∈ positionsToFill g ↔
      (r < 4 ∧ c < 13 ∧ ∀ card, cellAt g r c = some card →
        card.id ∉ getLockedCards g)) ∧
    (∀ card, card ∈ cardsToShuffle g ↔
      ∃ r c, cellAt g r c = some card ∧ card.id ∉ getLockedCards g) := by
  obtain ⟨row0, row1, row2, row3, rfl⟩ := grid_four g h.1.1
  have h0 : row0.length = 13 := h.1.2 row0 (by simp)
  have h1 : row1.length = 13 := h.1.2 row1 (by simp)
  have h2 : row2.length = 13 := h.1.2 row2 (by simp)
  have h3 : row3.length = 13 := h.1.2 row3 (by simp)
  have hb0 : rowBreak row0 ≤ 13 := by have := rowBreak_le row0; omega
  have hb1 : rowBreak row1 ≤ 13 := by have := rowBreak_le row1; omega
  have hb2 : rowBreak row2 ≤ 13 := by have := rowBreak_le row2; omega
  have hb3 : rowBreak row3 ≤ 13 := by have := rowBreak_le row3; omega
  have hcol := collect_four row0 row1 row2 row3
  rw [h0, h1, h2, h3] at hcol
  have hposmem : ∀ r c, (r, c) ∈ positionsToFill [row0, row1, row2, row3] ↔
      (r < 4 ∧ rowBreak ([row0, row1, row2, row3].getD r []) ≤ c ∧ c < 13) := by
    intro r c
    rw [positionsToFill, hcol]
    constructor
    · intro hmem
      have hcases := List.mem_append.mp hmem
      rcases hcases with hm | hrest
      · obtain ⟨k, hk, hpair⟩ := List.mem_map.mp hm
        obtain ⟨rfl, rfl⟩ : 0 = r ∧ k = c := by
          constructor <;> [exact congrArg Prod.fst hpair; exact congrArg Prod.snd hpair]
        have := List.mem_range'_1.mp hk
        exact ⟨by omega, by simpa using this.1, by omega⟩
      · rcases List.mem_append.mp hrest with hm | hrest2
        · obtain ⟨k, hk, hpair⟩ := List.mem_map.mp hm
          obtain ⟨rfl, rfl⟩ : 1 = r ∧ k = c := by
            constructor <;> [exact congrArg Prod.fst hpair; exact congrArg Prod.snd hpair]
          have := List.mem_range'_1.mp hk
          exact ⟨by omega, by simpa using this.1, by omega⟩
        · rcases List.mem_append.mp hrest2 with hm | hm
          · obtain ⟨k, hk, hpair⟩ := List.mem_map.mp hm
            obtain ⟨rfl, rfl⟩ : 2 = r ∧ k = c := by
              constructor <;> [exact congrArg Prod.fst hpair; exact congrArg Prod.snd hpair]
            have := List.mem_range'_1.mp hk
            exact ⟨by omega, by simpa using this.1, by omega⟩
          · obtain ⟨k, hk, hpair⟩ := List.mem_map.mp hm
            obtain ⟨rfl, rfl⟩ : 3 = r ∧ k = c := by
              constructor <;> [exact congrArg Prod.fst hpair; exact congrArg Prod.snd hpair]
            have := List.mem_range'_1.mp hk
            exact ⟨by omega, by simpa using this.1, by omega⟩
    · rintro ⟨hr, hbc, hc13⟩
      interval_cases r
      · rw [List.getD_cons_zero] at hbc
        exact List.mem_append.mpr (Or.inl (List.mem_map.mpr
          ⟨c, List.mem_range'_1.mpr ⟨hbc, by omega⟩, rfl⟩))
      · simp only [List.getD_cons_succ, List.getD_cons_zero] at hbc
        exact List.mem_append.mpr (Or.inr (List.mem_append.mpr (Or.inl
          (List.mem_map.mpr ⟨c, List.mem_range'_1.mpr ⟨hbc, by omega⟩, rfl⟩))))
      · simp only [List.getD_cons_succ, List.getD_cons_zero] at hbc
        exact List.mem_append.mpr (Or.inr (List.mem_append.mpr (Or.inr
          (List.mem_append.mpr (Or.inl
            (List.mem_map.mpr ⟨c, List.mem_range'_1.mpr ⟨hbc, by omega⟩, rfl⟩))))))
      · simp only [List.getD_cons_succ, List.getD_cons_zero] at hbc
        exact List.mem_append.mpr (Or.inr (List.mem_append.mpr (Or.inr
          (List.mem_append.mpr (Or.inr
            (List.mem_map.mpr ⟨c, List.mem_range'_1.mpr ⟨hbc, by omega⟩, rfl⟩))))))
  constructor
  · intro r c
    rw [hposmem r c]
    constructor
    · rintro ⟨hr, hbc, hc13⟩
      refine ⟨hr, hc13, ?_⟩
      intro card hcell
      exact free_not_locked_four row0 row1 row2 row3 h.2 r c card hr hcell hbc
    · rintro ⟨hr, hc13, hfree⟩
      refine ⟨hr, ?_, hc13⟩
      by_contra hlt
      push_neg at hlt
      obtain ⟨card, hcard, -⟩ := break_cell_some ([row0, row1, row2, row3].getD r []) c hlt
      have hmem := locked_mem_four row0 row1 row2 row3 r c card hr hcard hlt
      exact hfree card hcard hmem
  · intro card
    constructor
    · intro hmem
      rw [cardsToShuffle, hcol] at hmem
      have hof : ∀ rr (row : List Cell), rr < 4 →
          [row0, row1, row2, row3].getD rr [] = row → row.length = 13 →
          card ∈ (row.drop (rowBreak row)).filterMap id →
          ∃ r c, cellAt [row0, row1, row2, row3] r c = some card ∧
            card.id ∉ getLockedCards [row0, row1, row2, row3] := by
        intro rr row hrr hrow hlen hm
        obtain ⟨cl, hcl, hclcard⟩ := List.mem_filterMap.mp hm
        obtain ⟨j, hj⟩ := List.getElem?_of_mem hcl
        have hjlen : j < (row.drop (rowBreak row)).length := getElem?_some_lt hj
        rw [List.length_drop] at hjlen
        have hcell : row.getD (rowBreak row + j) none = some card := by
          rw [List.getD_eq_getElem?_getD, ← List.getElem?_drop, hj]
          rw [show id cl = cl from rfl] at hclcard
          rw [hclcard]
          rfl
        have hcell2 : cellAt [row0, row1, row2, row3] rr (rowBreak row + j) = some card := by
          rw [cellAt, hrow]
          exact hcell
        refine ⟨rr, rowBreak row + j, hcell2, ?_⟩
        refine free_not_locked_four row0 row1 row2 row3 h.2 rr (rowBreak row + j) card hrr
          ?_ ?_
        · rw [hrow]; exact hcell
        · rw [hrow]; omega
      rcases List.mem_append.mp hmem with hm | hrest
      · exact hof 0 row0 (by omega) (by simp) h0 hm
      · rcases List.mem_append.mp hrest with hm | hrest2
        · exact hof 1 row1 (by omega) (by simp) h1 hm
        · rcases List.mem_append.mp hrest2 with hm | hm
          · exact hof 2 row2 (by omega) (by simp) h2 hm
          · exact hof 3 row3 (by omega) (by simp) h3 hm
    · rintro ⟨r, c, hcell, hnl⟩
      have hr : r < 4 := by
        by_contra h4
        rw [cellAt_oob_row (by simp; omega)] at hcell
        exact Option.noConfusion hcell
      have hbc : rowBreak ([row0, row1, row2, row3].getD r []) ≤ c := by
        by_contra hlt
        push_neg at hlt
        rw [cellAt] at hcell
        exact hnl (locked_mem_four row0 row1 row2 row3 r c card hr hcell hlt)
      rw [cellAt] at hcell
      have hmem2 : card ∈ (([row0, row1, row2, row3].getD r []).drop
          (rowBreak ([row0, row1, row2, row3].getD r []))).filterMap id := by
        refine List.mem_filterMap.mpr ⟨some card, ?_, rfl⟩
        rw [List.mem_iff_getElem?]
        refine ⟨c - rowBreak ([row0, row1, row2, row3].getD r []), ?_⟩
        rw [List.getElem?_drop]
        have harith : rowBreak ([row0, row1, row2, row3].getD r []) +
            (c - rowBreak ([row0, row1, row2, row3].getD r [])) = c := by omega
        rw [harith]
        exact getD_some_getElem hcell
      rw [cardsToShuffle, hcol]
      interval_cases r
      · rw [List.getD_cons_zero] at hmem2
        exact List.mem_append.mpr (Or.inl hmem2)
      · simp only [List.getD_cons_succ, List.getD_cons_zero] at hmem2
        exact List.mem_append.mpr (Or.inr (List.mem_append.mpr (Or.inl hmem2)))
      · simp only [List.getD_cons_succ, List.getD_cons_zero] at hmem2
        exact List.mem_append.mpr (Or.inr (List.mem_append.mpr (Or.inr
          (List.mem_append.mpr (Or.inl hmem2)))))
      · simp only [List.getD_cons_succ, List.getD_cons_zero] at hmem2
        exact List.mem_append.mpr (Or.inr (List.mem_append.mpr (Or.inr
          (List.mem_append.mpr (Or.inr hmem2)))))

/-- Witness for C2: the agreement instantiated on a concrete well-formed
board, checked at the broken cell (0, 2). -/
theorem freePartition_iff_locked_witness :
    WellFormedGrid mixedGrid ∧
    (((0 : Nat), (2 : Nat)) ∈ positionsToFill mixedGrid ↔
      ((0 : Nat) < 4 ∧ (2 : Nat) < 13 ∧ ∀ card, cellAt mixedGrid 0 2 = some card →
        card.id ∉ getLockedCards mixedGrid)) :=
  ⟨by decide, (freePartition_iff_locked mixedGrid (by decide)).1 0 2⟩

theorem free_cards_not_locked (row0 row1 row2 row3 : List Cell)
    (hnd : (gridIds [row0, row1, row2, row3]).Nodup)
    (r : Nat) (row : List Cell) (hr : r < 4)
    (hrow : [row0, row1, row2, row3].getD r [] = row) :
    ∀ card ∈ (row.drop (rowBreak row)).filterMap id,
      card.id ∉ getLockedCards [row0, row1, row2, row3] := by
  intro card hm
  obtain ⟨cl, hcl, hclcard⟩ := List.mem_filterMap.mp hm
  obtain ⟨j, hj⟩ := List.getElem?_of_mem hcl
  have hcell : row.getD (rowBreak row + j) none = some card := by
    rw [List.getD_eq_getElem?_getD, ← List.getElem?_drop, hj]
    rw [show id cl = cl from rfl] at hclcard
    rw [hclcard]
    rfl
  refine free_not_locked_four row0 row1 row2 row3 hnd r (rowBreak row + j) card hr ?_ ?_
  · rw [hrow]; exact hcell
  · rw [hrow]; omega

theorem take_cards_locked (row0 row1 row2 row3 : List Cell)
    (r : Nat) (row : List Cell) (hr : r < 4)
    (hrow : [row0, row1, row2, row3].getD r [] = row) :
    ∀ card ∈ (row.take (rowBreak row)).filterMap id,
      card.id ∈ getLockedCards [row0, row1, row2, row3] := by
  intro card hm
  obtain ⟨cl, hcl, hclcard⟩ := List.mem_filterMap.mp hm
  obtain ⟨j, hj⟩ := List.getElem?_of_mem hcl
  have hjb : j < rowBreak row := by
    have := getElem?_some_lt hj
    rw [List.length_take] at this
    omega
  have hcell : row.getD j none = some card := by
    rw [List.getD_eq_getElem?_getD]
    have hq : row[j]? = some cl := by
      rw [← hj, List.getElem?_take, if_pos hjb]
    rw [show id cl = cl from rfl] at hclcard
    rw [hclcard] at hq
    rw [hq]
    rfl
  exact locked_mem_four row0 row1 row2 row3 r j card hr (by rw [hrow]; exact hcell)
    (by rw [hrow]; exact hjb)

/-- C4: on a well-formed grid, `calculateScore` equals the sum of the rank
values of exactly those cards of the grid whose ids `getLockedCards` reports
as locked: the two independently implemented scans agree on every row's cut
point. -/
theorem calculateScore_eq_lockedSum (g : Grid) (h : WellFormedGrid g) :
    calculateScore g =
      ((((gridCells g).filterMap id).filter
          (fun cd => decide (cd.id ∈ getLockedCards g))).map
        (fun cd => getRankValue cd.rank)).sum := by
  obtain ⟨row0, row1, row2, row3, rfl⟩ := grid_four g h.1.1
  have hrowfilter : ∀ r (row : List Cell), r < 4 →
      [row0, row1, row2, row3].getD r [] = row →
      (row.filterMap id).filter
          (fun cd => decide (cd.id ∈ getLockedCards [row0, row1, row2, row3])) =
        (row.take (rowBreak row)).filterMap id := by
    intro r row hr hrow
    conv_lhs => rw [← List.take_append_drop (rowBreak row) row]
    rw [List.filterMap_append, List.filter_append]
    rw [List.filter_eq_self.mpr ?hT, List.filter_eq_nil_iff.mpr ?hD, List.append_nil]
    case hT =>
      intro a ha
      exact decide_eq_true (take_cards_locked row0 row1 row2 row3 r row hr hrow a ha)
    case hD =>
      intro a ha
      simp only [decide_eq_true_eq]
      exact free_cards_not_locked row0 row1 row2 row3 h.2 r row hr hrow a ha
  have hf0 := hrowfilter 0 row0 (by omega) (by simp)
  have hf1 := hrowfilter 1 row1 (by omega) (by simp)
  have hf2 := hrowfilter 2 row2 (by omega) (by simp)
  have hf3 := hrowfilter 3 row3 (by omega) (by simp)
  rw [gridCells]
  simp only [List.flatten_cons, List.flatten_nil, List.append_nil, List.filterMap_append,
    List.filter_append, List.map_append, List.sum_append]
  rw [hf0, hf1, hf2, hf3]
  simp only [calculateScore, List.map_cons, List.map_nil, List.sum_cons, List.sum_nil]
  rw [rowScore_eq row0, rowScore_eq row1, rowScore_eq row2, rowScore_eq row3]
  omega

/-- Witness for C4: score and locked-sum agree on a concrete well-formed
board with two partial locked prefixes. -/
theorem calculateScore_eq_lockedSum_witness :
    WellFormedGrid mixedGrid ∧
    calculateScore mixedGrid =
      ((((gridCells mixedGrid).filterMap id).filter
          (fun cd => decide (cd.id ∈ getLockedCards mixedGrid))).map
        (fun cd => getRankValue cd.rank)).sum :=
  ⟨by decide, calculateScore_eq_lockedSum mixedGrid (by decide)⟩

/-! # Complete rows: full score, full lock, break at column 12 -/

theorem scoreScan_run : ∀ (k : Nat) (l : List Cell) (s : Suit) (v : Nat),
    (∀ i, i < k → ∃ c : CardData, l.getD i none = some c ∧ c.suit = s ∧
      getRankValue c.rank = v + 1 + i) →
    l.getD k none = none →
    scoreScan s v l = (List.range' (v + 1) k).sum := by
  intro k
  induction k with
  | zero =>
    intro l s v hcards hend
    cases l with
    | nil => simp [scoreScan]
    | cons cell rest =>
      have hc : cell = none := by simpa using hend
      subst hc
      simp [scoreScan]
  | succ k ih =>
    intro l s v hcards hend
    obtain ⟨c0, hc0, hsuit, hrank⟩ := hcards 0 (by omega)
    cases l with
    | nil => simp [List.getD] at hc0
    | cons cell rest =>
      have hc : cell = some c0 := by simpa using hc0
      subst hc
      have hv1 : getRankValue c0.rank = v + 1 := by omega
      simp only [scoreScan, if_neg (not_not_intro hsuit), if_pos hv1, hv1]
      have hrest : scoreScan s (v + 1) rest = (List.range' (v + 2) k).sum := by
        refine ih rest s (v + 1) ?_ ?_
        · intro i hi
          obtain ⟨c, hcell, hs, hr⟩ := hcards (i + 1) (by omega)
          refine ⟨c, by simpa using hcell, hs, by omega⟩
        · simpa using hend
      rw [hrest, List.range'_succ]
      simp

theorem lockedExtLen_run : ∀ (k : Nat) (l : List Cell) (p : CardData),
    (∀ i, i < k → ∃ c : CardData, l.getD i none = some c ∧ c.suit = p.suit ∧
      getRankValue c.rank = getRankValue p.rank + 1 + i) →
    l.getD k none = none →
    lockedExtLen (some p) l = k := by
  intro k
  induction k with
  | zero =>
    intro l p hcards hend
    cases l with
    | nil => simp [lockedExtLen]
    | cons cell rest =>
      have hc : cell = none := by simpa using hend
      subst hc
      simp [lockedExtLen, contCheck]
  | succ k ih =>
    intro l p hcards hend
    obtain ⟨c0, hc0, hsuit, hrank⟩ := hcards 0 (by omega)
    cases l with
    | nil => simp [List.getD] at hc0
    | cons cell rest =>
      have hc : cell = some c0 := by simpa using hc0
      subst hc
      have hcont : contCheck (some p) (some c0) = true := by
        simp [contCheck, hsuit]
        omega
      rw [lockedExtLen, hcont, if_pos rfl]
      have hrest : lockedExtLen (some c0) rest = k := by
        refine ih rest c0 ?_ ?_
        · intro i hi
          obtain ⟨c, hcell, hs, hr⟩ := hcards (i + 1) (by omega)
          refine ⟨c, by simpa using hcell, by rw [hs, hsuit], by omega⟩
        · simpa using hend
      omega

theorem rowScore_complete (row : List Cell) (h : isRowComplete row = true) :
    rowScore row = 90 := by
  obtain ⟨h12, c0, h0, ht, hcells⟩ := (isRowComplete_iff row).mp h
  rw [rowScore, h0]
  simp only [if_neg (not_not_intro ht)]
  have hrun : scoreScan c0.suit 2 (row.drop 1) = (List.range' 3 11).sum := by
    refine scoreScan_run 11 (row.drop 1) c0.suit 2 ?_ ?_
    · intro i hi
      obtain ⟨cell, hc, hs, hr⟩ := hcells (i + 1) (by omega)
      refine ⟨cell, ?_, hs, by omega⟩
      rw [getD_drop, Nat.add_comm 1 i]
      exact hc
    · rw [getD_drop]
      simpa using h12
  rw [hrun]
  decide

theorem rowBreak_complete (row : List Cell) (h : isRowComplete row = true) :
    rowBreak row = 12 := by
  obtain ⟨h12, c0, h0, ht, hcells⟩ := (isRowComplete_iff row).mp h
  have hrv : getRankValue c0.rank = 2 := by
    rw [ht, getRankValue_two]
  rw [rowBreak, h0]
  simp only [if_pos ht]
  have hrun : lockedExtLen (some c0) (row.drop 1) = 11 := by
    refine lockedExtLen_run 11 (row.drop 1) c0 ?_ ?_
    · intro i hi
      obtain ⟨cell, hc, hs, hr⟩ := hcells (i + 1) (by omega)
      refine ⟨cell, ?_, hs, by omega⟩
      rw [getD_drop, Nat.add_comm 1 i]
      exact hc
    · rw [getD_drop]
      simpa using h12
  omega

/-- In a complete row every card sits strictly before column 12. -/
theorem complete_card_pos (row : List Cell) (hlen : row.length = 13)
    (h : isRowComplete row = true) {card : CardData} (hm : (some card) ∈ row) :
    ∃ j, j < 12 ∧ row.getD j none = some card := by
  obtain ⟨h12, -, -, -, -⟩ := (isRowComplete_iff row).mp h
  obtain ⟨j, hj⟩ := List.getElem?_of_mem hm
  have hjlen : j < 13 := by
    have := getElem?_some_lt hj
    omega
  have hgd : row.getD j none = some card := by
    rw [List.getD_eq_getElem?_getD, hj]
    rfl
  refine ⟨j, ?_, hgd⟩
  by_contra hge
  have hj12 : j = 12 := by omega
  rw [hj12] at hgd
  rw [h12] at hgd
  exact Option.noConfusion hgd

/-- Counterexample for C8: a board whose row 0 is the complete hearts run and
whose row 1 is an incomplete row keeping a locked 2S. The claim's
"getLockedCards contains exactly that row's 12 card ids" fails: the locked
set also holds the 2S id. -/
theorem completeRow_locked_exact_counterexample :
    isRowComplete (c8Grid.getD 0 []) = true ∧
    isRowComplete (c8Grid.getD 1 []) = false ∧
    isRowComplete (c8Grid.getD 2 []) = false ∧
    isRowComplete (c8Grid.getD 3 []) = false ∧
    WellFormedGrid c8Grid ∧
    ¬ (∀ s, s ∈ getLockedCards c8Grid ↔ s ∈ hearts12Ids) := by
  refine ⟨by decide, by decide, by decide, by decide, by decide, ?_⟩
  intro hset
  have h2s : "m2s" ∈ getLockedCards c8Grid := by decide
  have := (hset "m2s").mp h2s
  revert this
  decide

/-- C8 (amended): on a well-formed grid with a complete row r,
`calculateScore` equals 90 (the sum of rank values 2..13) plus the partial
credit of the other rows' locked prefixes; `getLockedCards` contains all 12
of the complete row's card ids, and that row contributes exactly the ids of
its own 12 cards (other rows' locked prefixes may add further ids). -/
theorem completeRow_score_locked (g : Grid) (h : WellFormedGrid g) (r : Nat)
    (hr : r < 4) (hcomp : isRowComplete (g.getD r []) = true) :
    calculateScore g = 90 +
      (((List.range 4).filter (fun i => decide (¬ i = r))).map
        (fun i => rowScore (g.getD i []))).sum ∧
    (∀ card, (some card) ∈ g.getD r [] → card.id ∈ getLockedCards g) ∧
    (∀ s, s ∈ rowLockedIds (g.getD r []) ↔ s ∈ rowIds (g.getD r [])) := by
  obtain ⟨row0, row1, row2, row3, rfl⟩ := grid_four g h.1.1
  have h0 : row0.length = 13 := h.1.2 row0 (by simp)
  have h1 : row1.length = 13 := h.1.2 row1 (by simp)
  have h2 : row2.length = 13 := h.1.2 row2 (by simp)
  have h3 : row3.length = 13 := h.1.2 row3 (by simp)
  have hlen : ([row0, row1, row2, row3].getD r []).length = 13 := by
    interval_cases r
    · simpa using h0
    · simpa using h1
    · simpa using h2
    · simpa using h3
  have hbr : rowBreak ([row0, row1, row2, row3].getD r []) = 12 :=
    rowBreak_complete _ hcomp
  have hscore := rowScore_complete _ hcomp
  refine ⟨?_, ?_, ?_⟩
  · simp only [calculateScore, List.map_cons, List.map_nil, List.sum_cons, List.sum_nil]
    interval_cases r
    · rw [List.getD_cons_zero] at hscore
      have hlist : (List.range 4).filter (fun i => decide (¬ i = (0 : Nat))) =
          [1, 2, 3] := by decide
      rw [hlist]
      simp only [List.map_cons, List.map_nil, List.sum_cons, List.sum_nil,
        List.getD_cons_succ, List.getD_cons_zero]
      omega
    · simp only [List.getD_cons_succ, List.getD_cons_zero] at hscore
      have hlist : (List.range 4).filter (fun i => decide (¬ i = (1 : Nat))) =
          [0, 2, 3] := by decide
      rw [hlist]
      simp only [List.map_cons, List.map_nil, List.sum_cons, List.sum_nil,
        List.getD_cons_succ, List.getD_cons_zero]
      omega
    · simp only [List.getD_cons_succ, List.getD_cons_zero] at hscore
      have hlist : (List.range 4).filter (fun i => decide (¬ i = (2 : Nat))) =
          [0, 1, 3] := by decide
      rw [hlist]
      simp only [List.map_cons, List.map_nil, List.sum_cons, List.sum_nil,
        List.getD_cons_succ, List.getD_cons_zero]
      omega
    · simp only [List.getD_cons_succ, List.getD_cons_zero] at hscore
      have hlist : (List.range 4).filter (fun i => decide (¬ i = (3 : Nat))) =
          [0, 1, 2] := by decide
      rw [hlist]
      simp only [List.map_cons, List.map_nil, List.sum_cons, List.sum_nil,
        List.getD_cons_succ, List.getD_cons_zero]
      omega
  · intro card hm
    obtain ⟨j, hj12, hgd⟩ := complete_card_pos _ hlen hcomp hm
    exact locked_mem_four row0 row1 row2 row3 r j card hr hgd (by omega)
  · intro s
    constructor
    · exact rowLockedIds_subset _ s
    · intro hs
      obtain ⟨card, hcardmem, rfl⟩ := List.mem_map.mp hs
      obtain ⟨cl, hcl, hclcard⟩ := List.mem_filterMap.mp hcardmem
      rw [show id cl = cl from rfl] at hclcard
      subst hclcard
      obtain ⟨j, hj12, hgd⟩ := complete_card_pos _ hlen hcomp hcl
      obtain ⟨card2, hcard2, hmemL⟩ :=
        break_cell_some ([row0, row1, row2, row3].getD r []) j (by omega)
      rw [hgd] at hcard2
      obtain rfl : card2 = card := by injection hcard2 with hq; exact hq.symm
      exact hmemL

/-- Witness for C8 (amended): the concrete board with the finished hearts row
and a locked 2S elsewhere. -/
theorem completeRow_score_locked_witness :
    WellFormedGrid c8Grid ∧ (0 : Nat) < 4 ∧ isRowComplete (c8Grid.getD 0 []) = true ∧
    (calculateScore c8Grid = 90 +
      (((List.range 4).filter (fun i => decide (¬ i = 0))).map
        (fun i => rowScore (c8Grid.getD i []))).sum ∧
    (∀ card, (some card) ∈ c8Grid.getD 0 [] → card.id ∈ getLockedCards c8Grid) ∧
    (∀ s, s ∈ rowLockedIds (c8Grid.getD 0 []) ↔ s ∈ rowIds (c8Grid.getD 0 []))) :=
  ⟨by decide, by decide, by decide,
    completeRow_score_locked c8Grid (by decide) 0 (by decide) (by decide)⟩

theorem shuffleList_nil (rand : Nat → Nat) : shuffleList rand ([] : List α) = [] := by
  have := shuffleList_perm rand ([] : List α)
  exact this.eq_nil

theorem drop12_of_complete (row : List Cell) (hlen : row.length = 13)
    (h : isRowComplete row = true) : row.drop 12 = [none] := by
  obtain ⟨h12, -, -, -, -⟩ := (isRowComplete_iff row).mp h
  have h13 : 12 < row.length := by omega
  have hq : row[12]? = some none := by
    rw [List.getElem?_eq_getElem h13]
    rw [List.getD_eq_getElem?_getD, List.getElem?_eq_getElem h13] at h12
    simp only [Option.getD_some] at h12
    rw [h12]
  have hget : row[12] = none := by
    rw [List.getElem?_eq_getElem h13] at hq
    injection hq
  rw [List.drop_eq_getElem_cons h13, hget]
  have hempty : row.drop 13 = [] := by
    rw [← hlen, List.drop_length]
  rw [hempty]

/-- C10: reshuffling a winning grid returns it unchanged, whatever random
sequence is used: every complete row's twelve cards are locked, the only free
position per row is the column-12 gap, and each of the four gaps is refilled
with a gap. -/
theorem reshuffle_of_win_eq (r1 r2 : Nat → Nat) (g : Grid) (hv : ValidGrid g)
    (hw : checkWinCondition g = true) : reshuffleBoard r1 r2 g = g := by
  obtain ⟨row0, row1, row2, row3, rfl⟩ := grid_four g hv.1
  have h0 : row0.length = 13 := hv.2 row0 (by simp)
  have h1 : row1.length = 13 := hv.2 row1 (by simp)
  have h2 : row2.length = 13 := hv.2 row2 (by simp)
  have h3 : row3.length = 13 := hv.2 row3 (by simp)
  rw [checkWinCondition, List.all_eq_true] at hw
  have hc0 : isRowComplete row0 = true := hw row0 (by simp)
  have hc1 : isRowComplete row1 = true := hw row1 (by simp)
  have hc2 : isRowComplete row2 = true := hw row2 (by simp)
  have hc3 : isRowComplete row3 = true := hw row3 (by simp)
  have hb0 : rowBreak row0 = 12 := rowBreak_complete row0 hc0
  have hb1 : rowBreak row1 = 12 := rowBreak_complete row1 hc1
  have hb2 : rowBreak row2 = 12 := rowBreak_complete row2 hc2
  have hb3 : rowBreak row3 = 12 := rowBreak_complete row3 hc3
  have hd0 : row0.drop 12 = [none] := drop12_of_complete row0 h0 hc0
  have hd1 : row1.drop 12 = [none] := drop12_of_complete row1 h1 hc1
  have hd2 : row2.drop 12 = [none] := drop12_of_complete row2 h2 hc2
  have hd3 : row3.drop 12 = [none] := drop12_of_complete row3 h3 hc3
  have hcol := collect_four row0 row1 row2 row3
  rw [h0, h1, h2, h3] at hcol
  have hcards : cardsToShuffle [row0, row1, row2, row3] = [] := by
    rw [cardsToShuffle, hcol]
    simp only [hb0, hb1, hb2, hb3, hd0, hd1, hd2, hd3]
    simp
  have hposlen : (positionsToFill [row0, row1, row2, row3]).length = 4 := by
    rw [positionsToFill, hcol]
    simp only [hb0, hb1, hb2, hb3]
    simp [List.length_range']
  have hfs : fillStream r1 r2 [row0, row1, row2, row3] = [none, none, none, none] := by
    rw [fillStream, fillItemsOf, hcards, hposlen, shuffleList_nil]
    simp only [List.map_nil, List.nil_append, List.length_nil, Nat.sub_zero]
    have heq : shuffleList r2 (List.replicate 4 (none : Cell)) =
        List.replicate 4 (none : Cell) :=
      List.perm_replicate.mp (shuffleList_perm r2 _)
    rw [heq]
    decide
  rw [reshuffleBoard_four r1 r2 row0 row1 row2 row3 h0 h1 h2 h3, hfs, hb0, hb1, hb2, hb3]
  have htail0 : row0.take 12 ++ [none] = row0 := by
    conv_rhs => rw [← List.take_append_drop 12 row0]
    rw [hd0]
  have htail1 : row1.take 12 ++ [none] = row1 := by
    conv_rhs => rw [← List.take_append_drop 12 row1]
    rw [hd1]
  have htail2 : row2.take 12 ++ [none] = row2 := by
    conv_rhs => rw [← List.take_append_drop 12 row2]
    rw [hd2]
  have htail3 : row3.take 12 ++ [none] = row3 := by
    conv_rhs => rw [← List.take_append_drop 12 row3]
    rw [hd3]
  norm_num
  exact ⟨htail0, htail1, htail2, htail3⟩

/-- Witness for C10: the concrete winning board is a fixed point of a
reshuffle with concrete random oracles. -/
theorem reshuffle_of_win_eq_witness :
    ValidGrid winGrid ∧ checkWinCondition winGrid = true ∧
      reshuffleBoard (fun n => n * n + 2) (fun n => 3 * n) winGrid = winGrid :=
  ⟨by decide, by decide,
    reshuffle_of_win_eq (fun n => n * n + 2) (fun n => 3 * n) winGrid (by decide)
      (by decide)⟩

/-! # Board initialization -/

theorem popCard_concat (t : List CardData) (c : CardData) :
    popCard (t ++ [c]) = some (c, t) := by
  rw [popCard, List.getLast?_concat]
  simp only [List.dropLast_concat]

theorem dealRowAux_eq : ∀ (s t : List CardData),
    dealRowAux s.length (t ++ s) = some (s.reverse.map toCell, t) := by
  intro s
  induction s using List.reverseRecOn with
  | nil => intro t; simp [dealRowAux]
  | append_singleton s' c ih =>
    intro t
    have hlen : (s' ++ [c]).length = s'.length + 1 := by simp
    have hpop : popCard (t ++ (s' ++ [c])) = some (c, t ++ s') := by
      rw [← List.append_assoc]
      exact popCard_concat (t ++ s') c
    rw [hlen]
    simp only [dealRowAux, hpop, ih t]
    simp [List.reverse_concat]

theorem filterMap_map_toCell : ∀ l : List CardData,
    (l.map toCell).filterMap id = l.filter (fun c => decide (¬ c.rank = Rank.ACE)) := by
  intro l
  induction l with
  | nil => simp
  | cons c rest ih =>
    by_cases hA : c.rank = Rank.ACE
    · simp only [List.map_cons, List.filter_cons, toCell, if_pos hA, filterMap_id_cons,
        Option.toList, List.nil_append, ih]
      rw [if_neg (by simpa using hA)]
    · simp only [List.map_cons, List.filter_cons, toCell, if_neg hA, filterMap_id_cons,
        Option.toList, List.singleton_append, ih]
      rw [if_pos (by simpa using hA)]

theorem toCell_isNone (c : CardData) :
    (toCell c).isNone = decide (c.rank = Rank.ACE) := by
  by_cases hA : c.rank = Rank.ACE
  · simp [toCell, hA]
  · simp [toCell, hA]

/-- C6: every run of `initializeBoard`, whatever the random sequence, yields
a 4x13 grid with exactly 4 gaps and 48 cards, the 48 cards being exactly the
48 distinct non-Ace (suit, rank) pairs each once; no Ace appears. -/
theorem initializeBoard_integrity (rand : Nat → Nat) (suffix : Suit → Rank → String) :
    ∃ g, initializeBoard rand suffix = some g ∧ g.length = 4 ∧
      (∀ row ∈ g, row.length = 13) ∧
      (gridCells g).countP (fun cell => cell.isNone) = 4 ∧
      ((gridCells g).filterMap id).length = 48 ∧
      (((gridCells g).filterMap id).map (fun c => (c.suit, c.rank))).Perm nonAcePairs ∧
      nonAcePairs.Nodup ∧
      ∀ card ∈ (gridCells g).filterMap id, card.rank ≠ Rank.ACE := by
  obtain ⟨deck, hdeckdef⟩ : ∃ d : List CardData,
      shuffleDeck rand (generateDeck suffix) = d := ⟨_, rfl⟩
  have hlen : deck.length = 52 := by
    rw [← hdeckdef, shuffleDeck, shuffleList_length]
    simp [generateDeck, SUITS, RANKS]
  have hdperm : deck.Perm (generateDeck suffix) := by
    rw [← hdeckdef]
    exact shuffleList_perm rand _
  have hlen1 : (deck.take 39).length = 39 := by rw [List.length_take]; omega
  have hlen2 : ((deck.take 39).take 26).length = 26 := by
    rw [List.length_take]; omega
  have hlen3 : (((deck.take 39).take 26).take 13).length = 13 := by
    rw [List.length_take]; omega
  have hdrop0 : (deck.drop 39).length = 13 := by rw [List.length_drop]; omega
  have hdrop1 : ((deck.take 39).drop 26).length = 13 := by
    rw [List.length_drop]; omega
  have hdrop2 : (((deck.take 39).take 26).drop 13).length = 13 := by
    rw [List.length_drop]; omega
  have hdeal0 : dealRowAux 13 deck = some (((deck.drop 39).reverse).map toCell,
      deck.take 39) := by
    have := dealRowAux_eq (deck.drop 39) (deck.take 39)
    rw [hdrop0, List.take_append_drop] at this
    exact this
  have hdeal1 : dealRowAux 13 (deck.take 39) =
      some ((((deck.take 39).drop 26).reverse).map toCell, (deck.take 39).take 26) := by
    have := dealRowAux_eq ((deck.take 39).drop 26) ((deck.take 39).take 26)
    rw [hdrop1, List.take_append_drop] at this
    exact this
  have hdeal2 : dealRowAux 13 ((deck.take 39).take 26) =
      some (((((deck.take 39).take 26).drop 13).reverse).map toCell,
        ((deck.take 39).take 26).take 13) := by
    have := dealRowAux_eq (((deck.take 39).take 26).drop 13)
      (((deck.take 39).take 26).take 13)
    rw [hdrop2, List.take_append_drop] at this
    exact this
  have hdeal3 : dealRowAux 13 (((deck.take 39).take 26).take 13) =
      some (((((deck.take 39).take 26).take 13).reverse).map toCell, []) := by
    have := dealRowAux_eq (((deck.take 39).take 26).take 13) []
    rw [hlen3, List.nil_append] at this
    exact this
  refine ⟨[((deck.drop 39).reverse).map toCell,
      (((deck.take 39).drop 26).reverse).map toCell,
      ((((deck.take 39).take 26).drop 13).reverse).map toCell,
      ((((deck.take 39).take 26).take 13).reverse).map toCell], ?_, rfl, ?_, ?_⟩
  · unfold initializeBoard
    rw [hdeckdef, hdeal0]
    simp only [hdeal1, hdeal2, hdeal3]
  · intro row hrow
    simp only [List.mem_cons, List.not_mem_nil, or_false] at hrow
    rcases hrow with rfl | rfl | rfl | rfl
    · rw [List.length_map, List.length_reverse, hdrop0]
    · rw [List.length_map, List.length_reverse, hdrop1]
    · rw [List.length_map, List.length_reverse, hdrop2]
    · rw [List.length_map, List.length_reverse, hlen3]
  have hperm : (gridCells [((deck.drop 39).reverse).map toCell,
      (((deck.take 39).drop 26).reverse).map toCell,
      ((((deck.take 39).take 26).drop 13).reverse).map toCell,
      ((((deck.take 39).take 26).take 13).reverse).map toCell]).Perm
      (deck.map toCell) := by
    rw [gridCells]
    simp only [List.flatten_cons, List.flatten_nil, List.append_nil]
    rw [← Multiset.coe_eq_coe]
    simp only [← Multiset.coe_add]
    have e0 : (↑(((deck.drop 39).reverse).map toCell) : Multiset Cell) =
        ↑((deck.drop 39).map toCell) :=
      Multiset.coe_eq_coe.mpr ((List.reverse_perm _).map toCell)
    have e1 : (↑((((deck.take 39).drop 26).reverse).map toCell) : Multiset Cell) =
        ↑(((deck.take 39).drop 26).map toCell) :=
      Multiset.coe_eq_coe.mpr ((List.reverse_perm _).map toCell)
    have e2 : (↑(((((deck.take 39).take 26).drop 13).reverse).map toCell) : Multiset Cell) =
        ↑((((deck.take 39).take 26).drop 13).map toCell) :=
      Multiset.coe_eq_coe.mpr ((List.reverse_perm _).map toCell)
    have e3 : (↑(((((deck.take 39).take 26).take 13).reverse).map toCell) : Multiset Cell) =
        ↑((((deck.take 39).take 26).take 13).map toCell) :=
      Multiset.coe_eq_coe.mpr ((List.reverse_perm _).map toCell)
    rw [e0, e1, e2, e3]
    have s2 : (↑((((deck.take 39).take 26).take 13).map toCell) : Multiset Cell) +
        ↑((((deck.take 39).take 26).drop 13).map toCell) =
        ↑(((deck.take 39).take 26).map toCell) := by
      rw [Multiset.coe_add, ← List.map_append, List.take_append_drop]
    have s1 : (↑(((deck.take 39).take 26).map toCell) : Multiset Cell) +
        ↑(((deck.take 39).drop 26).map toCell) = ↑((deck.take 39).map toCell) := by
      rw [Multiset.coe_add, ← List.map_append, List.take_append_drop]
    have s0 : (↑((deck.take 39).map toCell) : Multiset Cell) +
        ↑((deck.drop 39).map toCell) = ↑(deck.map toCell) := by
      rw [Multiset.coe_add, ← List.map_append, List.take_append_drop]
    rw [← s0, ← s1, ← s2]
    abel
  have hfperm : ((gridCells [((deck.drop 39).reverse).map toCell,
      (((deck.take 39).drop 26).reverse).map toCell,
      ((((deck.take 39).take 26).drop 13).reverse).map toCell,
      ((((deck.take 39).take 26).take 13).reverse).map toCell]).filterMap id).Perm
      ((generateDeck suffix).filter (fun c => decide (¬ c.rank = Rank.ACE))) := by
    refine (hperm.filterMap id).trans ?_
    rw [filterMap_map_toCell]
    exact hdperm.filter _
  refine ⟨?_, ?_, ?_, by decide, ?_⟩
  · rw [hperm.countP_eq]
    rw [List.countP_map]
    have hc : (deck.countP (fun c => (toCell c).isNone)) =
        deck.countP (fun c => decide (c.rank = Rank.ACE)) := by
      refine List.countP_congr ?_
      intro c _
      rw [toCell_isNone c]
    have hfun : ((fun cell => Option.isNone cell) ∘ toCell) =
        (fun c => (toCell c).isNone) := rfl
    rw [hfun, hc, hdperm.countP_eq]
    simp [generateDeck, SUITS, RANKS, List.countP_cons, mkCard]
  · rw [hfperm.length_eq]
    simp [generateDeck, SUITS, RANKS, List.filter, mkCard]
  · refine (hfperm.map _).trans ?_
    have : ((generateDeck suffix).filter (fun c => decide (¬ c.rank = Rank.ACE))).map
        (fun c => (c.suit, c.rank)) = nonAcePairs := by
      simp [generateDeck, SUITS, RANKS, List.filter, mkCard, nonAcePairs]
    rw [this]
  · intro card hcard
    have := hfperm.mem_iff.mp hcard
    have hmem := List.mem_filter.mp this
    simpa using hmem.2

end GapsSolitaire
